import Mathlib

/-!
Verification of the metadata-aggregation core of the repository
(`javsp/__main__.py`): the orchestrator's worker wrapper and post-join
bookkeeping (`parallel_crawler`), the reconciler (`info_summary`) and the
namer (`generate_names`).  Python data is embedded shallowly: optional
values become `Option`, Python truthiness becomes explicit `Bool`-valued
predicates, dictionaries iterated in insertion order become association
lists, and code that can raise returns `Except Unit`.
Functions that live in repository modules not shipped here
(`javsp.func`, `javsp.datatype`, `javsp.config`) are either taken as
parameters or modelled from the spec, as marked in their doc comments.
-/

namespace JavSP

/-! ### Python value helpers -/

/-- Truthiness of a Python `Optional[str]`: `None` and `''` are falsy. -/
def pyTruthyStr : Option String → Bool
  | none => false
  | some s => !(s == "")

/-- Truthiness of a Python `Optional[list]`: `None` and `[]` are falsy. -/
def pyTruthyList : Option (List String) → Bool
  | none => false
  | some l => !l.isEmpty

/-- Truthiness of a Python `Optional[dict]` (insertion-ordered assoc list). -/
def pyTruthyDict : Option (List (String × String)) → Bool
  | none => false
  | some l => !l.isEmpty

/-- Python slicing `s[:r]` for an `int` bound `r`: a nonnegative bound keeps
the first `r` characters; a negative bound drops the last `|r|` characters. -/
def pySlice (s : String) (r : Int) : String :=
  if 0 ≤ r then s.take r.toNat else s.take (s.length - (-r).toNat)

/-! ### The record type

`MovieInfo` (from `javsp.datatype`, not shipped) is a sparse record of
metadata fields; the fields modelled here are the ones the claims touch.
All fields start as Python `None`. -/

structure MovieInfo where
  dvdid : Option String := none
  cid : Option String := none
  title : Option String := none
  plot : Option String := none
  genre : Option (List String) := none
  uncensored : Option Bool := none
  cover : Option String := none
  big_cover : Option String := none
  actress : Option (List String) := none
  actress_pics : Option (List (String × String)) := none
  deriving Repr, DecidableEq

/-! ### The merge loop of `info_summary` (lines 242-267)

`final_info` plus the two running cover lists form the merge state.  The
loop walks the sources in the order of `all_info` and applies, per field:
`cover`/`big_cover` are appended to the running lists when truthy and not
yet present; `uncensored` is taken when the current value is `None` and the
incoming one is not; every other field is taken when the current value is
falsy and the incoming one truthy. -/

structure MergeState where
  fi : MovieInfo
  covers : List String := []
  big_covers : List String := []
  deriving Repr, DecidableEq

/-- Generic absorption of the `else` branch of the loop:
`if (not current) and (incoming): setattr(final_info, attr, incoming)`. -/
def absorbOther {α : Type} (t : α → Bool) (cur inc : α) : α :=
  if !t cur && t inc then inc else cur

/-- Cover-list absorption: `if incoming and (incoming not in covers):
covers.append(incoming)`. -/
def absorbCover (covers : List String) (inc : Option String) : List String :=
  match inc with
  | none => covers
  | some url => if url ≠ "" ∧ url ∉ covers then covers ++ [url] else covers

/-- `uncensored` absorption: `if (current is None) and (incoming is not
None): setattr(final_info, attr, incoming)`. -/
def absorbUnc (cur inc : Option Bool) : Option Bool :=
  if cur.isNone && inc.isSome then inc else cur

/-- One iteration of the merge loop: absorb one source record into the
merge state (the per-attribute `for attr in attrs` body, unrolled over the
modelled fields). -/
def absorbSource (st : MergeState) (data : MovieInfo) : MergeState :=
  { fi := { dvdid := absorbOther pyTruthyStr st.fi.dvdid data.dvdid
            cid := absorbOther pyTruthyStr st.fi.cid data.cid
            title := absorbOther pyTruthyStr st.fi.title data.title
            plot := absorbOther pyTruthyStr st.fi.plot data.plot
            genre := absorbOther pyTruthyList st.fi.genre data.genre
            uncensored := absorbUnc st.fi.uncensored data.uncensored
            cover := st.fi.cover
            big_cover := st.fi.big_cover
            actress := absorbOther pyTruthyList st.fi.actress data.actress
            actress_pics := absorbOther pyTruthyDict st.fi.actress_pics data.actress_pics }
    covers := absorbCover st.covers data.cover
    big_covers := absorbCover st.big_covers data.big_cover }

/-- The whole merge loop `for name, data in all_info.items(): ...`. -/
def mergeRecords (st : MergeState) (all_info : List (String × MovieInfo)) : MergeState :=
  all_info.foldl (fun s p => absorbSource s p.2) st

/-! ### Generic field view for the non-special fields -/

/-- The non-special fields of the record: every modelled field except the
cover fields (accumulated into lists) and `uncensored` (first non-null). -/
inductive GField
  | dvdid | cid | title | plot | genre | actress | actress_pics
  deriving Repr, DecidableEq

/-- A Python field value, untyped. -/
inductive PyVal
  | str : Option String → PyVal
  | strList : Option (List String) → PyVal
  | dict : Option (List (String × String)) → PyVal
  deriving Repr, DecidableEq

/-- Python truthiness of an untyped field value. -/
def PyVal.truthy : PyVal → Bool
  | .str v => pyTruthyStr v
  | .strList v => pyTruthyList v
  | .dict v => pyTruthyDict v

/-- Read a non-special field of a record as an untyped value. -/
def MovieInfo.getG (i : MovieInfo) : GField → PyVal
  | .dvdid => .str i.dvdid
  | .cid => .str i.cid
  | .title => .str i.title
  | .plot => .str i.plot
  | .genre => .strList i.genre
  | .actress => .strList i.actress
  | .actress_pics => .dict i.actress_pics

/-- Generic absorption at the untyped level. -/
def pyAbsorb (cur inc : PyVal) : PyVal :=
  if !cur.truthy && inc.truthy then inc else cur

theorem getG_absorbSource (st : MergeState) (d : MovieInfo) (f : GField) :
    (absorbSource st d).fi.getG f = pyAbsorb (st.fi.getG f) (d.getG f) := by
  cases f <;>
    simp only [absorbSource, MovieInfo.getG, pyAbsorb, absorbOther, PyVal.truthy,
      Bool.and_eq_true, Bool.not_eq_true'] <;>
    split <;> rfl

theorem getG_mergeRecords (st : MergeState) (l : List (String × MovieInfo)) (f : GField) :
    (mergeRecords st l).fi.getG f
      = (l.map (fun p => p.2.getG f)).foldl pyAbsorb (st.fi.getG f) := by
  induction l generalizing st with
  | nil => rfl
  | cons a l ih =>
      simp only [mergeRecords, List.foldl_cons, List.map_cons]
      rw [show (List.foldl (fun s p => absorbSource s p.2) (absorbSource st a.2) l)
            = mergeRecords (absorbSource st a.2) l from rfl,
          ih, getG_absorbSource]

theorem foldl_pyAbsorb_eq (init : PyVal) (l : List PyVal) :
    l.foldl pyAbsorb init
      = if init.truthy then init else (l.find? PyVal.truthy).getD init := by
  induction l generalizing init with
  | nil => simp
  | cons a l ih =>
      by_cases h : init.truthy = true
      · have : pyAbsorb init a = init := by simp [pyAbsorb, h]
        simp only [List.foldl_cons, this, ih, h, if_pos]
      · have hinit : init.truthy = false := by
          cases hcase : init.truthy
          · rfl
          · exact absurd hcase h
        by_cases ha : a.truthy = true
        · have : pyAbsorb init a = a := by simp [pyAbsorb, hinit, ha]
          simp only [List.foldl_cons, this, ih, ha, if_pos, hinit,
            Bool.false_eq_true, if_false, List.find?_cons_of_pos _ ha,
            Option.getD_some]
        · have ha' : a.truthy = false := by
            cases hcase : a.truthy
            · rfl
            · exact absurd hcase ha
          have hab : pyAbsorb init a = init := by simp [pyAbsorb, hinit, ha']
          rw [List.foldl_cons, hab, ih, List.find?_cons_of_neg _ (by simp [ha'])]

theorem uncensored_absorbSource (st : MergeState) (d : MovieInfo) :
    (absorbSource st d).fi.uncensored = absorbUnc st.fi.uncensored d.uncensored := rfl

theorem uncensored_mergeRecords (st : MergeState) (l : List (String × MovieInfo)) :
    (mergeRecords st l).fi.uncensored
      = (l.map (fun p => p.2.uncensored)).foldl absorbUnc st.fi.uncensored := by
  induction l generalizing st with
  | nil => rfl
  | cons a l ih =>
      simp only [mergeRecords, List.foldl_cons, List.map_cons]
      rw [show (List.foldl (fun s p => absorbSource s p.2) (absorbSource st a.2) l)
            = mergeRecords (absorbSource st a.2) l from rfl,
          ih, uncensored_absorbSource]

theorem foldl_absorbUnc_eq (init : Option Bool) (l : List (Option Bool)) :
    l.foldl absorbUnc init
      = if init.isSome then init else l.findSome? id := by
  induction l generalizing init with
  | nil => cases init <;> simp
  | cons a l ih =>
      cases init with
      | some b =>
          have : absorbUnc (some b) a = some b := by simp [absorbUnc]
          simp only [List.foldl_cons, this, ih, Option.isSome_some, if_pos]
      | none =>
          cases a with
          | some c =>
              have : absorbUnc none (some c) = some c := by simp [absorbUnc]
              simp [List.foldl_cons, this, ih, List.findSome?]
          | none =>
              have : absorbUnc none none = none := by simp [absorbUnc]
              simp [List.foldl_cons, this, ih, List.findSome?]

theorem mergeRecords_append (st : MergeState) (l₁ l₂ : List (String × MovieInfo)) :
    mergeRecords st (l₁ ++ l₂) = mergeRecords (mergeRecords st l₁) l₂ := by
  simp [mergeRecords, List.foldl_append]

/-! ### Configuration and item (`javsp.config` / `javsp.datatype`, not shipped)

Only the configuration knobs `info_summary` and `parallel_crawler` read are
modelled; required keys are drawn from the enumerated record fields. -/

/-- `Cfg().crawler.use_javdb_cover` modes; the spec calls them
demote / remove / keep. The code matches on `fallback` and `no`, any other
member leaves the cover list untouched. -/
inductive UseJavDBCover
  | fallback | no | yes
  deriving Repr, DecidableEq

/-- The identifier-kind / data-source classification of an item. -/
inductive DataSrc
  | normal | cid | fc2
  deriving Repr, DecidableEq

/-- A field name admissible in `required_keys` (a `getattr` target on the
final record). -/
inductive RField
  | dvdid | cid | title | plot | genre | actress | actress_pics
  | uncensored | cover | big_cover | covers | big_covers
  deriving Repr, DecidableEq

structure Config where
  remove_trailing_actor_name : Bool := false
  respect_site_avid : Bool := false
  use_javdb_cover : UseJavDBCover := .yes
  normalize_actress_name : Bool := false
  required_keys : List RField := []

/-- The item under processing, restricted to the fields the verified
functions read or write. -/
structure Movie where
  dvdid : Option String := none
  cid : Option String := none
  data_src : DataSrc := .normal
  hard_sub : Bool := false
  uncensored : Bool := false
  deriving Repr, DecidableEq

/-- Modelled from the spec: `MovieInfo(movie)` (constructor of
`javsp.datatype`, not shipped) creates a fresh sparse record for the item,
seeded with the item's identifiers (the code later reads
`final_info.dvdid` as the already-chosen identifier, lines 284-292); all
metadata fields start unknown. -/
def MovieInfo.fromMovie (m : Movie) : MovieInfo :=
  { dvdid := m.dvdid, cid := m.cid }

/-- Dictionary lookup `all_info.get(k)` on an insertion-ordered dict. -/
def lookupInfo (all_info : List (String × MovieInfo)) (k : String) : Option MovieInfo :=
  (all_info.find? (fun p => p.1 == k)).map (fun p => p.2)

/-! ### `info_summary` stages (lines 220-335) -/

/-- Lines 226-229: seed `final_info.genre` from the `javdb` record when
present with a truthy genre list. -/
def seedGenre (all_info : List (String × MovieInfo)) (fi : MovieInfo) : MovieInfo :=
  match lookupInfo all_info "javdb" with
  | some jd => if pyTruthyList jd.genre then { fi with genre := jd.genre } else fi
  | none => fi

/-- Lines 231-237: when configured, rewrite every source's title through
`remove_trail_actor_in_title` (from `javsp.func`, not shipped — taken here
as the parameter `strip`). -/
def stripTitles (cfg : Config)
    (strip : Option String → Option (List String) → Option String)
    (all_info : List (String × MovieInfo)) : List (String × MovieInfo) :=
  if cfg.remove_trailing_actor_name then
    all_info.map (fun p => (p.1, { p.2 with title := strip p.2.title p.2.actress }))
  else all_info

/-- `dict.setdefault(k, []).append(n)`: append `n` to the group of key `k`,
creating the group at the end in insertion order when absent. -/
def setdefaultAppend (l : List (Option String × List String))
    (k : Option String) (n : String) : List (Option String × List String) :=
  if l.any (fun g => decide (g.1 = k)) then
    l.map (fun g => if g.1 = k then (g.1, g.2 ++ [n]) else g)
  else l ++ [(k, [n])]

/-- Lines 271-277: group the names of the sources that produced a truthy
title by the identifier value they returned (`dvdid` when the movie has a
dvdid, else `cid`). -/
def idWeight (useDvdid : Bool) (all_info : List (String × MovieInfo)) :
    List (Option String × List String) :=
  all_info.foldl
    (fun acc p =>
      if pyTruthyStr p.2.title then
        setdefaultAppend acc (if useDvdid then p.2.dvdid else p.2.cid) p.1
      else acc)
    []

/-- Head of Python's stable descending sort by group size (lines 280-281):
`sorted` is stable, so the head of the descending sort is the first group
whose size is maximal — a group keeps its place against every later group
that is not strictly larger. -/
def firstMaxGroup : List (Option String × List String) →
    Option (Option String × List String)
  | [] => none
  | g :: gs =>
      match firstMaxGroup gs with
      | none => some g
      | some b => if b.2.length > g.2.length then some b else some g

/-- Lines 270-292: `respect_site_avid` — replace the chosen identifier by
the one backed by the most sources (earliest group on ties). -/
def applySiteAvid (movie : Movie) (all_info : List (String × MovieInfo))
    (st : MergeState) : MergeState :=
  match firstMaxGroup (idWeight (pyTruthyStr movie.dvdid) all_info) with
  | none => st
  | some g =>
      if pyTruthyStr movie.dvdid then { st with fi := { st.fi with dvdid := g.1 } }
      else { st with fi := { st.fi with cid := g.1 } }

/-- Python `list.remove(x)`: removes the first occurrence, raises
`ValueError` when absent. -/
def pyRemove (l : List String) (x : String) : Except Unit (List String) :=
  if x ∈ l then .ok (l.erase x) else .error ()

/-- Lines 294-302: the watermarked `javdb` cover is demoted to the end of
the candidate list (`fallback`), removed (`no`), or kept untouched. -/
def applyJavdbCover (cfg : Config) (all_info : List (String × MovieInfo))
    (st : MergeState) : Except Unit MergeState :=
  match (lookupInfo all_info "javdb").bind (fun d => d.cover) with
  | none => .ok st
  | some url =>
      match cfg.use_javdb_cover with
      | .fallback => do
          let c ← pyRemove st.covers url
          .ok { st with covers := c ++ [url] }
      | .no => do
          let c ← pyRemove st.covers url
          .ok { st with covers := c }
      | .yes => .ok st

/-- Lines 111-116: `resolve_alias` maps an alternate spelling to the first
canonical name whose alias list contains it. -/
def resolve_alias (aliasMap : List (String × List String)) (name : String) : String :=
  match aliasMap.find? (fun p => name ∈ p.2) with
  | some p => p.1
  | none => name

/-- Python dict comprehension result: insert or overwrite in place,
keeping the first-insertion position of each key. -/
def pyDictOfItems (items : List (String × String)) : List (String × String) :=
  items.foldl
    (fun acc kv =>
      if acc.any (fun p => p.1 == kv.1) then
        acc.map (fun p => if p.1 == kv.1 then (p.1, kv.2) else p)
      else acc ++ [kv])
    []

/-- Lines 306-310: `setattr` of the running lists, then promote the head
of each non-empty list to `cover` / `big_cover`. -/
def promoteCovers (st : MergeState) : MergeState :=
  let fi := st.fi
  let fi := match st.covers with
    | c :: _ => { fi with cover := some c }
    | [] => fi
  let fi := match st.big_covers with
    | c :: _ => { fi with big_cover := some c }
    | [] => fi
  { st with fi := fi }

/-- Lines 312-318: default `genre` to the empty list, then append the
fixed hard-sub and uncensored tags from the item flags. -/
def fixGenre (movie : Movie) (fi : MovieInfo) : MovieInfo :=
  let fi := if fi.genre.isNone then { fi with genre := some [] } else fi
  let fi := if movie.hard_sub then { fi with genre := some (fi.genre.getD [] ++ ["内嵌字幕"]) } else fi
  if movie.uncensored then { fi with genre := some (fi.genre.getD [] ++ ["无码流出/破解"]) } else fi

/-- Lines 320-326: when enabled and the per-person image map is truthy,
rewrite every actress name and every image-map key through the alias
table; iterating a `None` actress list raises `TypeError`. -/
def normalizeActress (cfg : Config) (aliasMap : List (String × List String))
    (fi : MovieInfo) : Except Unit MovieInfo :=
  if cfg.normalize_actress_name && pyTruthyDict fi.actress_pics then
    match fi.actress with
    | none => .error ()
    | some l =>
        .ok { fi with
          actress := some (l.map (resolve_alias aliasMap))
          actress_pics := fi.actress_pics.map
            (fun pics => pyDictOfItems (pics.map (fun kv => (resolve_alias aliasMap kv.1, kv.2)))) }
  else .ok fi

def postProcess (cfg : Config) (aliasMap : List (String × List String))
    (movie : Movie) (st : MergeState) : Except Unit MergeState :=
  match normalizeActress cfg aliasMap (fixGenre movie (promoteCovers st).fi) with
  | .error e => .error e
  | .ok fi => .ok { promoteCovers st with fi := fi }

/-- `getattr(final_info, attr, None)` truthiness for a required-key check:
the merge state doubles as the final record, with the stored cover lists
as the `covers` / `big_covers` attributes. -/
def MergeState.truthyR (st : MergeState) : RField → Bool
  | .dvdid => pyTruthyStr st.fi.dvdid
  | .cid => pyTruthyStr st.fi.cid
  | .title => pyTruthyStr st.fi.title
  | .plot => pyTruthyStr st.fi.plot
  | .genre => pyTruthyList st.fi.genre
  | .actress => pyTruthyList st.fi.actress
  | .actress_pics => pyTruthyDict st.fi.actress_pics
  | .uncensored => st.fi.uncensored == some true
  | .cover => pyTruthyStr st.fi.cover
  | .big_cover => pyTruthyStr st.fi.big_cover
  | .covers => !st.covers.isEmpty
  | .big_covers => !st.big_covers.isEmpty

/-- Lines 220-326 of `info_summary`: everything before the required-key
check, producing the fully-merged record. -/
def buildFinal (cfg : Config) (aliasMap : List (String × List String))
    (strip : Option String → Option (List String) → Option String)
    (movie : Movie) (all_info : List (String × MovieInfo)) :
    Except Unit MergeState := do
  let fi0 := seedGenre all_info (MovieInfo.fromMovie movie)
  let stripped := stripTitles cfg strip all_info
  let st := mergeRecords { fi := fi0 } stripped
  let st := if cfg.respect_site_avid then applySiteAvid movie stripped st else st
  let st ← applyJavdbCover cfg stripped st
  postProcess cfg aliasMap movie st

/-- `info_summary` (lines 220-335): build the final record, then fail
(`return False`, leaving `movie.info` unset — here `none`) when any
required field is falsy, else attach the record (`some`). -/
def info_summary (cfg : Config) (aliasMap : List (String × List String))
    (strip : Option String → Option (List String) → Option String)
    (movie : Movie) (all_info : List (String × MovieInfo)) :
    Except Unit (Option MergeState) := do
  let fst ← buildFinal cfg aliasMap strip movie all_info
  if cfg.required_keys.all (fun r => fst.truthyR r) then
    .ok (some fst)
  else
    .ok none

/-! ### The worker `wrapper` of `parallel_crawler` (lines 142-170)

One adapter invocation either succeeds or raises one of the classified
exception groups; the attempt loop `for cnt in range(retry)` reacts to the
outcome of attempt `cnt`.  `MovieNotFoundError`, `MovieDuplicateError` and
the access-denied group `break` out of the loop; a
`requests.exceptions.RequestException` and the generic `except Exception`
handler both fall through to the next iteration. -/

inductive FetchOutcome
  | success | notFound | duplicate | accessDenied | network | unclassified
  deriving Repr, DecidableEq

/-- The attempt loop with `remaining` iterations left, current attempt
index `cnt`; returns the success marker and the number of attempts made. -/
def runAttempts (parser : Nat → FetchOutcome) : Nat → Nat → Bool × Nat
  | 0, _ => (false, 0)
  | remaining + 1, cnt =>
      match parser cnt with
      | .success => (true, 1)
      | .notFound => (false, 1)
      | .duplicate => (false, 1)
      | .accessDenied => (false, 1)
      | .network =>
          let r := runAttempts parser remaining (cnt + 1)
          (r.1, r.2 + 1)
      | .unclassified =>
          let r := runAttempts parser remaining (cnt + 1)
          (r.1, r.2 + 1)

/-- `wrapper(parser, info, retry)`: run the attempt loop from attempt 0;
the record is marked successful exactly when some attempt succeeded. -/
def wrapper (parser : Nat → FetchOutcome) (retry : Nat) : Bool × Nat :=
  runAttempts parser retry 0

/-! ### Identifier-kind self-correction of `parallel_crawler` (lines 200-210) -/

/-- The list comprehension `[all_info[i].title for i in sel]`, read left to
right, raising `KeyError` at the first missing key. -/
def readTitles (all_info : List (String × MovieInfo)) :
    List String → Except Unit (List (Option String))
  | [] => .ok []
  | i :: t =>
      match lookupInfo all_info i with
      | some d => (readTitles all_info t).map (fun ts => d.title :: ts)
      | none => .error ()

/-- Lines 200-210: after all workers join, for an item that started as
content-id kind and also carries a dvdid, read the titles of the records
of the cid-kind source list (`Cfg().crawler.selection[movie.data_src]`,
raising `KeyError` when such a key is missing); when any is truthy the
cid classification is kept (dvdid cleared, only cid-list records kept),
otherwise the item becomes `normal` (cid cleared, cid-list records
dropped). -/
def movie_type_correction (movie : Movie) (cidSel : List String)
    (all_info : List (String × MovieInfo)) :
    Except Unit (Movie × List (String × MovieInfo)) :=
  if movie.data_src = .cid ∧ pyTruthyStr movie.dvdid then do
    let titles ← readTitles all_info cidSel
    if titles.any pyTruthyStr then
      .ok ({ movie with dvdid := none },
           all_info.filter (fun p => cidSel.contains p.1))
    else
      .ok ({ movie with data_src := .normal, cid := none },
           all_info.filter (fun p => !cidSel.contains p.1))
  else .ok (movie, all_info)

/-! ### Result filtering and key rewrite of `parallel_crawler` (lines 211-217) -/

/-- Lines 211-217: keep only the records whose worker set the success
marker, then rewrite every key with `k[4:]` (drop the first four
characters — the comment claims this strips a `'web.'` prefix, but the
keys built at line 175 are the bare `i.value` source names, the same names
used as the `javsp.web.{name}` module suffix at line 185). -/
def finalize_crawl (all_info : List (String × (Bool × MovieInfo))) :
    List (String × MovieInfo) :=
  (all_info.filter (fun p => p.2.1)).map (fun p => (p.1.drop 4, p.2.2))

/-! ### The Namer: `generate_names` (lines 337-439)

Templates (`pattern.format(**copyd)`) are modelled as functions of the two
dictionary entries that vary inside the fitting loop — `rawtitle` and
`title` — with every other entry baked in.  `os.path` functions are
modelled over strings; `replace_illegal_chars` (from `javsp.func`, not
shipped) is a configuration parameter.  Fidelity note on that parameter:
the in-source comment of `legalize_path` (lines 340-345, issue 467) states
that newline characters do reach the generated paths, so the parameter is
not assumed to erase them. -/

/-- Chinese / ASCII punctuation used as chunk boundaries. -/
def isPunc (c : Char) : Bool :=
  c = ',' ∨ c = '.' ∨ c = '!' ∨ c = '?' ∨ c = ';' ∨ c = ':' ∨
  c = '，' ∨ c = '。' ∨ c = '！' ∨ c = '？' ∨ c = '；' ∨ c = '：' ∨ c = '…'

def splitPuncAux : List Char → List Char → List String
  | acc, [] => [String.mk acc.reverse]
  | acc, c :: rest =>
      if isPunc c then String.mk (acc.reverse ++ [c]) :: splitPuncAux [] rest
      else splitPuncAux (c :: acc) rest

/-- Modelled from the spec: `split_by_punc` (from `javsp.func`, not
shipped) splits a string into ordered chunks at punctuation boundaries,
keeping each boundary character with its chunk; like a regex split it
always yields at least one (possibly empty) chunk. -/
def splitByPunc (s : String) : List String :=
  splitPuncAux [] s.toList

/-- Python whitespace, as stripped by `str.strip()`. -/
def pyWS (c : Char) : Bool :=
  c = ' ' ∨ c = '\t' ∨ c = '\n' ∨ c = '\r' ∨ c = '\x0b' ∨ c = '\x0c'

/-- Python `s.strip()`: drop leading and trailing whitespace. -/
def pyStrip (s : String) : String :=
  String.mk (((s.toList.dropWhile pyWS).reverse.dropWhile pyWS).reverse)

/-- `os.path.join(a, b)`, modelled as inserting a single separator. -/
def pyJoin (a b : String) : String := a ++ "/" ++ b

/-- Split a character list at every occurrence of a separator character,
keeping empty pieces (like `str.split(sep)`). -/
def splitCharAux (sep : Char) : List Char → List Char → List (List Char)
  | acc, [] => [acc.reverse]
  | acc, c :: cs =>
      if c = sep then acc.reverse :: splitCharAux sep [] cs
      else splitCharAux sep (c :: acc) cs

def pathParts (p : String) : List (List Char) := splitCharAux '/' [] p.toList

/-- `os.path.dirname`: everything before the last separator. -/
def dirname (p : String) : String :=
  String.mk (List.intercalate ['/'] (pathParts p).dropLast)

/-- `os.path.basename`: everything after the last separator. -/
def pyBasename (p : String) : String := String.mk ((pathParts p).getLastD [])

/-- Remove every occurrence of a (non-empty) pattern, with fuel for
structural termination; `fuel = length` of the scanned list suffices. -/
def pyReplaceAux (pat : List Char) : List Char → Nat → List Char
  | l, 0 => l
  | [], _ + 1 => []
  | c :: cs, fuel + 1 =>
      if pat.isPrefixOf (c :: cs) ∧ pat ≠ [] then
        pyReplaceAux pat (List.drop pat.length (c :: cs)) fuel
      else c :: pyReplaceAux pat cs fuel

/-- Python `s.replace(pat, '')`: removes every occurrence of `pat`
(identity when `pat` is empty, matching `str.replace('', '')`). -/
def pyReplaceDel (s pat : String) : String :=
  String.mk (pyReplaceAux pat.toList s.toList s.toList.length)

/-- Split a character list at its last dot, when one exists. -/
def lastDotSplit : List Char → Option (List Char × List Char)
  | [] => none
  | c :: cs =>
      match lastDotSplit cs with
      | some (b, e) => some (c :: b, e)
      | none => if c = '.' then some ([], c :: cs) else none

/-- `os.path.splitext(p)[1]`: the extension (with dot) of the base name,
leading dots not counting as extension separators. -/
def extOf (p : String) : String :=
  let b := (pyBasename p).toList
  let lead := (b.takeWhile (fun c => c = '.')).length
  match lastDotSplit (b.drop lead) with
  | some (_, e) => String.mk e
  | none => ""

/-- `max(iterable, key=len)`: raises on an empty iterable, otherwise
returns the first element of maximal length. -/
def pyMaxByLen : List String → Except Unit String
  | [] => .error ()
  | x :: xs => .ok (xs.foldl (fun cur c => if c.length > cur.length then c else cur) x)

/-- Lines 340-345: `legalize_path` drops every newline character. -/
def legalize_path (path : String) : String :=
  String.mk (path.toList.filter (fun c => c ≠ '\n'))

structure NamerCfg where
  move_files : Bool
  output_folder_pattern : String → String → String
  basename_pattern : String → String → String
  nfo_basename_pattern : String → String → String
  fanart_basename_pattern : String → String → String
  cover_basename_pattern : String → String → String
  replaceIllegal : String → String
  normpath : String → String
  abspath : String → String
  limit : Int

/-- The item as the Namer sees it: its source files, the optional
pre-computed chunk lists carried on `movie.info`, and the path fields the
Namer assigns (unset until it completes). -/
structure NMovie where
  files : List String
  title_break : Option (List String) := none
  ori_title_break : Option (List String) := none
  save_dir : Option String := none
  basename : Option String := none
  nfo_file : Option String := none
  fanart_file : Option String := none
  poster_file : Option String := none

/-- `copyd['title'] = replace_illegal_chars(''.join(chunks[:k]).strip())`. -/
def candTitle (cfg : NamerCfg) (chunks : List String) (k : Nat) : String :=
  cfg.replaceIllegal (pyStrip (String.join (chunks.take k)))

/-- Lines 401-409: render the output directory and base name for the
current candidate titles (or derive them from the first source file when
files are not moved). -/
def renderDirBase (cfg : NamerCfg) (m : NMovie) (rawt tit : String) : String × String :=
  if cfg.move_files then
    (pyStrip (cfg.normpath (cfg.output_folder_pattern rawt tit)),
     pyStrip (cfg.normpath (cfg.basename_pattern rawt tit)))
  else
    (dirname (m.files.headD ""),
     pyReplaceDel (pyBasename (m.files.headD "")) (extOf (m.files.headD "")))

/-- Lines 410-411: remaining path budget of the candidate, for the given
longest extension (`get_remaining_path_len`, from `javsp.func`, not
shipped — modelled from the spec as the platform limit minus the absolute
path length). -/
def remainingAt (cfg : NamerCfg) (m : NMovie) (tb otb : List String)
    (ext : String) (e s : Nat) : Int :=
  let rawt := candTitle cfg otb e
  let tit := candTitle cfg tb s
  let p := renderDirBase cfg m rawt tit
  cfg.limit - (cfg.abspath (pyJoin p.1 (p.2 ++ ext))).length

/-- The inner loop `for sub_end in range(len(title_break), 0, -1)`:
first `sub_end` (scanning downwards) with positive remaining budget. -/
def innerLoop (f : Nat → Int) : Nat → Option Nat
  | 0 => none
  | k + 1 => if 0 < f (k + 1) then some (k + 1) else innerLoop f k

/-- The outer loop `for end in range(len(ori_title_break), 0, -1)` with
the inner loop nested inside. -/
def outerLoop (g : Nat → Nat → Int) (m : Nat) : Nat → Option (Nat × Nat)
  | 0 => none
  | e + 1 =>
      match innerLoop (g (e + 1)) m with
      | some s => some (e + 1, s)
      | none => outerLoop g m e

/-- Lines 412-417 / 432-437: assign the five path fields from the chosen
directory, base name, and candidate titles. -/
def assignFields (cfg : NamerCfg) (m : NMovie) (sd bn rawt tit : String) : NMovie :=
  { m with
    save_dir := some sd
    basename := some bn
    nfo_file := some (pyJoin sd (cfg.nfo_basename_pattern rawt tit ++ ".nfo"))
    fanart_file := some (pyJoin sd (cfg.fanart_basename_pattern rawt tit ++ ".jpg"))
    poster_file := some (pyJoin sd (cfg.cover_basename_pattern rawt tit ++ ".jpg")) }

/-- Lines 380-393: `legalize_info` legalizes the assigned `save_dir`,
`nfo_file`, `fanart_file` and `poster_file` — not `basename`. -/
def legalize_info (m : NMovie) : NMovie :=
  { m with
    save_dir := m.save_dir.map legalize_path
    nfo_file := m.nfo_file.map legalize_path
    fanart_file := m.fanart_file.map legalize_path
    poster_file := m.poster_file.map legalize_path }

/-- The Namer's result: the item with its path fields assigned plus the
final (possibly truncated) candidate titles, observable through the
truncation log messages of `legalize_info`. -/
structure NamerOut where
  movie : NMovie
  title : String
  rawtitle : String

/-- Lines 370-373: the display-title chunk list, taken from the record
when pre-computed (by the translation step), else split here. -/
def namerTB (m : NMovie) (dTitle : String) : List String :=
  m.title_break.getD (splitByPunc dTitle)

/-- Lines 374-377: the raw-title chunk list. -/
def namerOTB (m : NMovie) (dRawtitle : String) : List String :=
  m.ori_title_break.getD (splitByPunc dRawtitle)

/-- The value of `longest_ext` when `movie.files` is non-empty. -/
def longestExt (m : NMovie) : String :=
  match pyMaxByLen (m.files.map extOf) with
  | .ok e => e
  | .error _ => ""

/-- Lines 412-418: the plan accepted at chunk counts `(e, s)`, with the
path fields legalized on the way out. -/
def acceptAt (cfg : NamerCfg) (m : NMovie) (dTitle dRawtitle _ext : String)
    (e s : Nat) : NamerOut :=
  let rawt := candTitle cfg (namerOTB m dRawtitle) e
  let tit := candTitle cfg (namerTB m dTitle) s
  let db := renderDirBase cfg m rawt tit
  { movie := legalize_info (assignFields cfg m db.1 db.2 rawt tit)
    title := tit, rawtitle := rawt }

/-- Lines 419-439: the fallback plan — both candidate titles (at their
shortest, one chunk) hard-sliced with Python slicing at the remaining
budget computed in the last loop iteration `(1, 1)`. -/
def fallbackPlan (cfg : NamerCfg) (m : NMovie) (dTitle dRawtitle ext : String) :
    NamerOut :=
  let rem := remainingAt cfg m (namerTB m dTitle) (namerOTB m dRawtitle) ext 1 1
  let tit := pySlice (candTitle cfg (namerTB m dTitle) 1) rem
  let rawt := pySlice (candTitle cfg (namerOTB m dRawtitle) 1) rem
  let db := renderDirBase cfg m rawt tit
  { movie := legalize_info (assignFields cfg m db.1 db.2 rawt tit)
    title := tit, rawtitle := rawt }

/-- The loop of lines 397-439 for a given longest extension: take the
first fitting chunk-count pair; when none fits, fall back — unless either
chunk list is empty, in which case the loop body never ran and the
`else` clause raises `NameError` on the unbound `remaining`. -/
def namerCore (cfg : NamerCfg) (m : NMovie) (dTitle dRawtitle ext : String) :
    Except Unit NamerOut :=
  match outerLoop (remainingAt cfg m (namerTB m dTitle) (namerOTB m dRawtitle) ext)
      (namerTB m dTitle).length (namerOTB m dRawtitle).length with
  | some p => .ok (acceptAt cfg m dTitle dRawtitle ext p.1 p.2)
  | none =>
      if (namerTB m dTitle).isEmpty || (namerOTB m dRawtitle).isEmpty then .error ()
      else .ok (fallbackPlan cfg m dTitle dRawtitle ext)

/-- `generate_names` from line 369 on: chunk the two titles, compute the
longest source-file extension (raising on an empty file list), run the
nested first-fit search with fallback.  `dTitle` and `dRawtitle` are the
sanitized dictionary entries `d['title']` and `d['rawtitle']`. -/
def generate_names (cfg : NamerCfg) (m : NMovie) (dTitle dRawtitle : String) :
    Except Unit NamerOut := do
  let ext ← pyMaxByLen (m.files.map extOf)
  namerCore cfg m dTitle dRawtitle ext

/-! ## Supporting lemmas -/

theorem runAttempts_all_transient (parser : Nat → FetchOutcome) :
    ∀ (r cnt : Nat),
      (∀ k, k < r → (parser (cnt + k) = .network ∨ parser (cnt + k) = .unclassified)) →
      runAttempts parser r cnt = (false, r) := by
  intro r
  induction r with
  | zero => intro cnt _; rfl
  | succ r ih =>
      intro cnt h
      have h0 := h 0 (Nat.succ_pos r)
      simp only [Nat.add_zero] at h0
      have hrest : ∀ k, k < r →
          (parser ((cnt + 1) + k) = .network ∨ parser ((cnt + 1) + k) = .unclassified) := by
        intro k hk
        have := h (k + 1) (Nat.succ_lt_succ hk)
        simpa [Nat.add_assoc, Nat.add_comm 1 k] using this
      rcases h0 with h0 | h0 <;>
        simp [runAttempts, h0, ih (cnt + 1) hrest]

theorem runAttempts_count_le (parser : Nat → FetchOutcome) :
    ∀ (r cnt : Nat), (runAttempts parser r cnt).2 ≤ r := by
  intro r
  induction r with
  | zero => intro cnt; exact Nat.le_refl 0
  | succ r ih =>
      intro cnt
      cases h : parser cnt <;> simp [runAttempts, h]
      · exact ih (cnt + 1)
      · exact ih (cnt + 1)

/-! ## Claim theorems -/

/-- C5 counterexample: the generic `except Exception` handler (lines
169-170) only logs and does not `break`, so the attempt loop proceeds to
the next iteration.  With a parser whose first attempt raises an
unclassified error and whose second succeeds, and a configured retry count
of 2, the wrapper makes a second attempt and marks the record successful —
under the claim ("unclassified errors are logged and not retried") the
loop would have stopped after one attempt, unmarked. -/
theorem wrapper_retries_unclassified :
    wrapper (fun n => if n == 0 then .unclassified else .success) 2 = (true, 2) := rfl

/-- C5 amended: not-found, duplicate-target and access-denied terminate
the attempt loop immediately with no further attempt; a success also stops
the loop; transient-network failures AND unclassified errors are both
retried, up to the configured retry count; the loop never makes more
attempts than the retry count. -/
theorem wrapper_error_classes (parser : Nat → FetchOutcome) (retry : Nat)
    (h : 1 ≤ retry) :
    (parser 0 = .notFound → wrapper parser retry = (false, 1))
    ∧ (parser 0 = .duplicate → wrapper parser retry = (false, 1))
    ∧ (parser 0 = .accessDenied → wrapper parser retry = (false, 1))
    ∧ (parser 0 = .success → wrapper parser retry = (true, 1))
    ∧ ((∀ cnt, cnt < retry → (parser cnt = .network ∨ parser cnt = .unclassified)) →
        wrapper parser retry = (false, retry))
    ∧ (wrapper parser retry).2 ≤ retry := by
  obtain ⟨r, rfl⟩ : ∃ r, retry = r + 1 := ⟨retry - 1, (Nat.succ_pred_eq_of_pos h).symm⟩
  refine ⟨?_, ?_, ?_, ?_, ?_, ?_⟩
  · intro hp; simp [wrapper, runAttempts, hp]
  · intro hp; simp [wrapper, runAttempts, hp]
  · intro hp; simp [wrapper, runAttempts, hp]
  · intro hp; simp [wrapper, runAttempts, hp]
  · intro hp
    have := runAttempts_all_transient parser (r + 1) 0 (by simpa using hp)
    simpa [wrapper] using this
  · exact runAttempts_count_le parser (r + 1) 0

/-- Witness for the C5 amended theorem: a parser failing with a network
error then an unclassified error, retry count 2 — both attempts are made
and the record stays unmarked. -/
theorem wrapper_error_classes_witness :
    (1 ≤ 2)
    ∧ wrapper (fun n => if n == 0 then .network else .unclassified) 2 = (false, 2) := by
  refine ⟨by decide, ?_⟩
  refine (wrapper_error_classes (fun n => if n == 0 then .network else .unclassified) 2
    (by decide)).2.2.2.2.1 ?_
  intro cnt hc
  rcases (by omega : cnt = 0 ∨ cnt = 1) with h | h <;> subst h
  · exact Or.inl rfl
  · exact Or.inr rfl

/-- C10: the success filtering is as claimed, but the returned keys are
not the bare source names.  The keys built at line 175 are the bare
`i.value` names (they are also the `javsp.web.{name}` module suffix at
line 185), yet line 216 still drops their first four characters — the
leftover of stripping a `'web.'` prefix the keys no longer carry, as the
comment at line 215 still claims.  Evaluating at the failing input: a
successful record under the configured source name `javdb` plus a failed
one under `avsox` yields the single marked record, keyed `'b'` instead of
`'javdb'` (so `info_summary`'s `'javdb' in all_info` checks can never
fire). -/
theorem finalize_crawl_mangles_keys :
    finalize_crawl [("javdb", (true, { title := some "T" })), ("avsox", (false, {}))]
      = [("b", { title := some "T" })] := rfl

theorem any_map_comp {α β : Type} (l : List α) (f : α → β) (p : β → Bool) :
    (l.map f).any p = l.any (fun a => p (f a)) := by
  induction l with
  | nil => rfl
  | cons a t ih => simp [List.any_cons, ih]

theorem except_ok_bind {α β : Type} (a : α) (f : α → Except Unit β) :
    (Except.ok a >>= f) = f a := rfl

/-- `readTitles` succeeds with the mapped titles when every listed source
has a record in `all_info` (true by construction at line 175). -/
theorem readTitles_eq (cidSel : List String) (all_info : List (String × MovieInfo))
    (h : ∀ i ∈ cidSel, (lookupInfo all_info i).isSome) :
    readTitles all_info cidSel
      = .ok (cidSel.map (fun i => ((lookupInfo all_info i).getD {}).title)) := by
  induction cidSel with
  | nil => rfl
  | cons a t ih =>
      obtain ⟨d, hd⟩ := Option.isSome_iff_exists.mp (h a (List.mem_cons_self a t))
      have ht : ∀ i ∈ t, (lookupInfo all_info i).isSome := fun i hi =>
        h i (List.mem_cons_of_mem a hi)
      simp [readTitles, hd, ih ht, Except.map]

/-- C4 counterexample: an item classified as content-id that also carries
a candidate standard identifier, where a standard-kind source (`javbus`)
returned a non-empty title.  The claim requires reclassification to
standard kind; the code instead checks the titles of the cid-kind sources
(line 202 indexes by `Cfg().crawler.selection[movie.data_src]` with
`data_src` still `'cid'`), finds `avsox`'s title truthy, and confirms the
content-id classification. -/
theorem cid_confirmed_despite_standard_title :
    pyTruthyStr ((lookupInfo
        [("avsox", { title := some "T1" }), ("javbus", { title := some "T2" })]
        "javbus").bind (fun d => d.title)) = true
    ∧ (match movie_type_correction
          { dvdid := some "ABC-123", cid := some "sqte00300", data_src := .cid }
          ["avsox"]
          [("avsox", { title := some "T1" }), ("javbus", { title := some "T2" })] with
        | .ok p => p.1.data_src
        | .error _ => .fc2) = DataSrc.cid
    ∧ DataSrc.cid ≠ DataSrc.normal := by
  refine ⟨rfl, rfl, by decide⟩

/-- C4 amended: for an item of content-id kind that also carries a dvdid,
the correction branches on whether any CID-KIND source returned a truthy
title: if so, the content-id classification is confirmed (the candidate
standard identifier is cleared) and only the cid-list records are kept;
otherwise the item is reclassified to standard kind (content-id cleared)
and the cid-list records are dropped. -/
theorem movie_type_correction_spec
    (movie : Movie) (cidSel : List String) (all_info : List (String × MovieInfo))
    (h1 : movie.data_src = .cid) (h2 : pyTruthyStr movie.dvdid = true)
    (h3 : ∀ i ∈ cidSel, (lookupInfo all_info i).isSome) :
    ∃ m2 ai2, movie_type_correction movie cidSel all_info = .ok (m2, ai2)
      ∧ (cidSel.any (fun i => pyTruthyStr (((lookupInfo all_info i).getD {}).title)) = true →
          m2 = { movie with dvdid := none }
          ∧ ai2 = all_info.filter (fun p => cidSel.contains p.1))
      ∧ (cidSel.any (fun i => pyTruthyStr (((lookupInfo all_info i).getD {}).title)) = false →
          m2 = { movie with data_src := .normal, cid := none }
          ∧ ai2 = all_info.filter (fun p => !cidSel.contains p.1)) := by
  unfold movie_type_correction
  rw [if_pos ⟨h1, h2⟩, readTitles_eq cidSel all_info h3]
  rw [except_ok_bind]
  cases hany :
      cidSel.any (fun i => pyTruthyStr (((lookupInfo all_info i).getD {}).title)) with
  | true =>
      have hcond : ((cidSel.map
          (fun i => ((lookupInfo all_info i).getD {}).title)).any pyTruthyStr) = true := by
        rw [any_map_comp]; exact hany
      refine ⟨{ movie with dvdid := none },
        all_info.filter (fun p => cidSel.contains p.1), ?_, ?_, ?_⟩
      · rw [if_pos hcond]
      · intro _; exact ⟨rfl, rfl⟩
      · intro hfalse; exact Bool.noConfusion hfalse
  | false =>
      have hcond : ((cidSel.map
          (fun i => ((lookupInfo all_info i).getD {}).title)).any pyTruthyStr) = false := by
        rw [any_map_comp]; exact hany
      refine ⟨{ movie with data_src := .normal, cid := none },
        all_info.filter (fun p => !cidSel.contains p.1), ?_, ?_, ?_⟩
      · rw [if_neg (by rw [hcond]; exact Bool.noConfusion)]
      · intro htrue; exact Bool.noConfusion htrue
      · intro _; exact ⟨rfl, rfl⟩

/-- Witness for the C4 amended theorem: content-id item with a dvdid, the
cid source `avsox` has no title, so the item is reclassified to `normal`
and the cid record dropped. -/
theorem movie_type_correction_spec_witness :
    (({ dvdid := some "ABC-123", cid := some "sqte00300", data_src := .cid } : Movie).data_src
        = DataSrc.cid)
    ∧ movie_type_correction
        { dvdid := some "ABC-123", cid := some "sqte00300", data_src := .cid }
        ["avsox"]
        [("avsox", {}), ("javbus", { title := some "T2" })]
      = .ok ({ dvdid := some "ABC-123", data_src := .normal },
             [("javbus", { title := some "T2" })]) := by
  constructor
  · rfl
  · obtain ⟨m2, ai2, hok, _, hfalse⟩ := movie_type_correction_spec
      { dvdid := some "ABC-123", cid := some "sqte00300", data_src := .cid }
      ["avsox"]
      [("avsox", {}), ("javbus", { title := some "T2" })]
      rfl rfl (by decide)
    obtain ⟨hm, hai⟩ := hfalse (by decide)
    rw [hok, hm, hai]
    rfl

/-- C1: for every merge input iterated in priority order and every
non-special field whose value on the initial record is falsy, the merged
value equals the first truthy (non-empty) value among the sources in
order; once the field is truthy, appending further sources never changes
it.  The boolean `uncensored` field takes the first non-null value among
the sources, and appending further sources never changes a decided
value. -/
theorem merge_first_nonempty_wins
    (st : MergeState) (l l2 : List (String × MovieInfo)) (f : GField)
    (hf : (st.fi.getG f).truthy = false) (hu : st.fi.uncensored = none) :
    ((mergeRecords st l).fi.getG f
        = ((l.map (fun p => p.2.getG f)).find? PyVal.truthy).getD (st.fi.getG f))
    ∧ ((mergeRecords st l).fi.uncensored = (l.map (fun p => p.2.uncensored)).findSome? id)
    ∧ (((mergeRecords st l).fi.getG f).truthy = true →
        (mergeRecords st (l ++ l2)).fi.getG f = (mergeRecords st l).fi.getG f)
    ∧ ((mergeRecords st l).fi.uncensored.isSome = true →
        (mergeRecords st (l ++ l2)).fi.uncensored = (mergeRecords st l).fi.uncensored) := by
  refine ⟨?_, ?_, ?_, ?_⟩
  · rw [getG_mergeRecords, foldl_pyAbsorb_eq, if_neg (by rw [hf]; exact Bool.noConfusion)]
  · rw [uncensored_mergeRecords, foldl_absorbUnc_eq, hu]
    simp
  · intro ht
    rw [mergeRecords_append, getG_mergeRecords, foldl_pyAbsorb_eq, if_pos ht]
  · intro ht
    rw [mergeRecords_append, uncensored_mergeRecords, foldl_absorbUnc_eq, if_pos ht]

def mwInit : MergeState := { fi := {} }

def mwRecs : List (String × MovieInfo) :=
  [("avsox", { plot := some "", uncensored := none }),
   ("javbus", { plot := some "P2", uncensored := some false }),
   ("javdb", { plot := some "P3", uncensored := some true })]

/-- Witness for C1 at a concrete merge input: `plot` starts falsy and
`uncensored` unknown; the merged `plot` is the first non-empty value
(`"P2"`, the empty string of the first source losing), the merged
`uncensored` the first non-null value (`false`, not overwritten by the
later `true`). -/
theorem merge_first_nonempty_wins_witness :
    ((mwInit.fi.getG .plot).truthy = false)
    ∧ (mwInit.fi.uncensored = none)
    ∧ (mergeRecords mwInit mwRecs).fi.getG .plot
        = ((mwRecs.map (fun p => p.2.getG .plot)).find? PyVal.truthy).getD (mwInit.fi.getG .plot)
    ∧ (mergeRecords mwInit mwRecs).fi.plot = some "P2"
    ∧ (mergeRecords mwInit mwRecs).fi.uncensored = some false := by
  refine ⟨rfl, rfl,
    (merge_first_nonempty_wins mwInit mwRecs [] GField.plot rfl rfl).1, ?_, ?_⟩
  · decide
  · decide

def c2cfg : Config := { required_keys := [RField.title] }

def c2fst : MergeState := { fi := { genre := some [] } }

/-- C2: given that the pre-check phase of the merge completed, the merge
reports failure (`.ok none`: `return False`, `movie.info` never assigned)
exactly when some field of the caller's required list is falsy on the
fully-merged record, and attaches the record (`.ok (some fst)`) exactly
when every required field is truthy. -/
theorem info_summary_required_iff
    (cfg : Config) (aliasMap : List (String × List String))
    (strip : Option String → Option (List String) → Option String)
    (movie : Movie) (all_info : List (String × MovieInfo)) (fst : MergeState)
    (h : buildFinal cfg aliasMap strip movie all_info = .ok fst) :
    (info_summary cfg aliasMap strip movie all_info = .ok none
        ↔ ∃ r ∈ cfg.required_keys, fst.truthyR r = false)
    ∧ (info_summary cfg aliasMap strip movie all_info = .ok (some fst)
        ↔ ∀ r ∈ cfg.required_keys, fst.truthyR r = true) := by
  unfold info_summary
  rw [h, except_ok_bind]
  by_cases hall : cfg.required_keys.all (fun r => fst.truthyR r) = true
  · rw [if_pos hall]
    refine ⟨⟨fun hx => absurd hx (by simp), ?_⟩,
      ⟨fun _ r hr => List.all_eq_true.mp hall r hr, fun _ => rfl⟩⟩
    rintro ⟨r, hr, hfalse⟩
    have := List.all_eq_true.mp hall r hr
    rw [hfalse] at this; exact Bool.noConfusion this
  · rw [if_neg hall]
    have hex : ∃ r ∈ cfg.required_keys, fst.truthyR r = false := by
      have hnot : ¬ (∀ r ∈ cfg.required_keys, fst.truthyR r = true) :=
        fun hforall => hall (List.all_eq_true.mpr hforall)
      push_neg at hnot
      obtain ⟨r, hr, hne⟩ := hnot
      refine ⟨r, hr, ?_⟩
      cases hcase : fst.truthyR r
      · rfl
      · exact absurd hcase hne
    refine ⟨⟨fun _ => hex, fun _ => rfl⟩, ⟨fun hx => absurd hx (by simp), ?_⟩⟩
    intro hforall
    exact absurd (List.all_eq_true.mpr hforall) hall

/-- Witness for C2: required key `title`, no sources — the fully-merged
record has a falsy title, the merge fails and attaches nothing. -/
theorem info_summary_required_iff_witness :
    (buildFinal c2cfg [] (fun t _ => t) {} [] = .ok c2fst)
    ∧ info_summary c2cfg [] (fun t _ => t) {} [] = .ok none := by
  constructor
  · rfl
  · exact (info_summary_required_iff c2cfg [] (fun t _ => t) {} [] c2fst rfl).1.mpr
      ⟨RField.title, by simp [c2cfg], rfl⟩

/-! ## Cover-list lemmas (for C6) -/

/-- The truthy cover values of a column of `Optional[str]` fields. -/
def truthyCovers (l : List (Option String)) : List String :=
  l.filterMap (fun o => match o with
    | some u => if u = "" then none else some u
    | none => none)

/-- First-seen-order de-duplication, relative to already-seen values. -/
def dedupFirstAux (seen : List String) : List String → List String
  | [] => []
  | x :: xs =>
      if x ∈ seen then dedupFirstAux seen xs
      else x :: dedupFirstAux (seen ++ [x]) xs

/-- The spec's cover-list shape: the union in visit order, keeping the
first occurrence of each URL. -/
def dedupFirst (l : List String) : List String := dedupFirstAux [] l

theorem foldl_absorbCover (l : List (Option String)) (acc : List String) :
    l.foldl absorbCover acc = acc ++ dedupFirstAux acc (truthyCovers l) := by
  induction l generalizing acc with
  | nil => simp [truthyCovers, dedupFirstAux]
  | cons o l ih =>
      cases o with
      | none =>
          have h1 : absorbCover acc none = acc := rfl
          have h2 : truthyCovers (none :: l) = truthyCovers l := by simp [truthyCovers]
          rw [List.foldl_cons, h1, h2, ih]
      | some u =>
          by_cases hu : u = ""
          · subst hu
            have h1 : absorbCover acc (some "") = acc := by simp [absorbCover]
            have h2 : truthyCovers (some "" :: l) = truthyCovers l := by simp [truthyCovers]
            rw [List.foldl_cons, h1, h2, ih]
          · have h2 : truthyCovers (some u :: l) = u :: truthyCovers l := by
              simp [truthyCovers, hu]
            by_cases hmem : u ∈ acc
            · have h1 : absorbCover acc (some u) = acc := by
                simp [absorbCover, hmem]
              rw [List.foldl_cons, h1, h2, ih, dedupFirstAux, if_pos hmem]
            · have h1 : absorbCover acc (some u) = acc ++ [u] := by
                simp [absorbCover, hu, hmem]
              rw [List.foldl_cons, h1, h2, ih, dedupFirstAux, if_neg hmem,
                List.append_assoc, List.singleton_append]

theorem dedupFirstAux_nodup (l : List String) :
    ∀ seen, (dedupFirstAux seen l).Nodup
      ∧ ∀ x ∈ dedupFirstAux seen l, x ∉ seen := by
  induction l with
  | nil => intro seen; simp [dedupFirstAux]
  | cons x xs ih =>
      intro seen
      by_cases hx : x ∈ seen
      · rw [dedupFirstAux, if_pos hx]; exact ih seen
      · rw [dedupFirstAux, if_neg hx]
        obtain ⟨hnd, hout⟩ := ih (seen ++ [x])
        refine ⟨List.nodup_cons.mpr ⟨fun hmem => (hout x hmem) (by simp), hnd⟩, ?_⟩
        intro y hy
        rcases List.mem_cons.mp hy with hyx | hy2
        · rw [hyx]; exact hx
        · intro hyseen
          exact hout y hy2 (by simp [hyseen])

theorem dedupFirst_nodup (l : List String) : (dedupFirst l).Nodup :=
  (dedupFirstAux_nodup l []).1

theorem covers_mergeRecords (st : MergeState) (l : List (String × MovieInfo)) :
    (mergeRecords st l).covers
      = (l.map (fun p => p.2.cover)).foldl absorbCover st.covers := by
  induction l generalizing st with
  | nil => rfl
  | cons a l ih =>
      simp only [mergeRecords, List.foldl_cons, List.map_cons]
      exact ih (absorbSource st a.2)

theorem big_covers_mergeRecords (st : MergeState) (l : List (String × MovieInfo)) :
    (mergeRecords st l).big_covers
      = (l.map (fun p => p.2.big_cover)).foldl absorbCover st.big_covers := by
  induction l generalizing st with
  | nil => rfl
  | cons a l ih =>
      simp only [mergeRecords, List.foldl_cons, List.map_cons]
      exact ih (absorbSource st a.2)

theorem mergeRecords_fi_cover (st : MergeState) (l : List (String × MovieInfo)) :
    (mergeRecords st l).fi.cover = st.fi.cover
    ∧ (mergeRecords st l).fi.big_cover = st.fi.big_cover := by
  induction l generalizing st with
  | nil => exact ⟨rfl, rfl⟩
  | cons a l ih =>
      simp only [mergeRecords, List.foldl_cons]
      exact ih (absorbSource st a.2)

theorem stripTitles_cover (cfg : Config)
    (strip : Option String → Option (List String) → Option String)
    (all_info : List (String × MovieInfo)) :
    ((stripTitles cfg strip all_info).map (fun p => p.2.cover)
        = all_info.map (fun p => p.2.cover))
    ∧ ((stripTitles cfg strip all_info).map (fun p => p.2.big_cover)
        = all_info.map (fun p => p.2.big_cover)) := by
  unfold stripTitles
  split
  · simp [List.map_map, Function.comp]
  · exact ⟨rfl, rfl⟩

theorem seedGenre_keeps (all_info : List (String × MovieInfo)) (fi : MovieInfo) :
    (seedGenre all_info fi).cover = fi.cover
    ∧ (seedGenre all_info fi).big_cover = fi.big_cover
    ∧ (seedGenre all_info fi).dvdid = fi.dvdid
    ∧ (seedGenre all_info fi).cid = fi.cid := by
  unfold seedGenre
  cases lookupInfo all_info "javdb" with
  | none => exact ⟨rfl, rfl, rfl, rfl⟩
  | some jd =>
      dsimp only
      by_cases hg : pyTruthyList jd.genre = true
      · rw [if_pos hg]; exact ⟨rfl, rfl, rfl, rfl⟩
      · rw [if_neg hg]; exact ⟨rfl, rfl, rfl, rfl⟩

theorem applySiteAvid_keeps (movie : Movie) (all_info : List (String × MovieInfo))
    (st : MergeState) :
    ((applySiteAvid movie all_info st).covers = st.covers)
    ∧ ((applySiteAvid movie all_info st).big_covers = st.big_covers)
    ∧ ((applySiteAvid movie all_info st).fi.cover = st.fi.cover)
    ∧ ((applySiteAvid movie all_info st).fi.big_cover = st.fi.big_cover) := by
  unfold applySiteAvid
  cases firstMaxGroup (idWeight (pyTruthyStr movie.dvdid) all_info) with
  | none => exact ⟨rfl, rfl, rfl, rfl⟩
  | some g =>
      dsimp only
      by_cases hd : pyTruthyStr movie.dvdid = true
      · rw [if_pos hd]; exact ⟨rfl, rfl, rfl, rfl⟩
      · rw [if_neg hd]; exact ⟨rfl, rfl, rfl, rfl⟩

theorem applyJavdbCover_noop (cfg : Config) (all_info : List (String × MovieInfo))
    (st : MergeState)
    (hmode : cfg.use_javdb_cover = .yes
      ∨ (lookupInfo all_info "javdb").bind (fun d => d.cover) = none) :
    applyJavdbCover cfg all_info st = .ok st := by
  unfold applyJavdbCover
  rcases hmode with hm | hn
  · cases (lookupInfo all_info "javdb").bind (fun d => d.cover) with
    | none => rfl
    | some url => rw [hm]
  · rw [hn]

theorem applyJavdbCover_keeps (cfg : Config) (all_info : List (String × MovieInfo))
    (st st2 : MergeState) (h : applyJavdbCover cfg all_info st = .ok st2) :
    st2.fi = st.fi ∧ st2.big_covers = st.big_covers := by
  unfold applyJavdbCover at h
  cases hjc : (lookupInfo all_info "javdb").bind (fun d => d.cover) with
  | none => rw [hjc] at h; cases h; exact ⟨rfl, rfl⟩
  | some url =>
      rw [hjc] at h
      dsimp only at h
      cases hm : cfg.use_javdb_cover with
      | fallback =>
          rw [hm] at h
          dsimp only at h
          unfold pyRemove at h
          by_cases hmem : url ∈ st.covers
          · rw [if_pos hmem] at h
            rw [except_ok_bind] at h
            cases h; exact ⟨rfl, rfl⟩
          · rw [if_neg hmem] at h
            exact Except.noConfusion h
      | no =>
          rw [hm] at h
          dsimp only at h
          unfold pyRemove at h
          by_cases hmem : url ∈ st.covers
          · rw [if_pos hmem] at h
            rw [except_ok_bind] at h
            cases h; exact ⟨rfl, rfl⟩
          · rw [if_neg hmem] at h
            exact Except.noConfusion h
      | yes =>
          rw [hm] at h
          dsimp only at h
          cases h; exact ⟨rfl, rfl⟩

theorem promoteCovers_spec (st : MergeState) :
    (promoteCovers st).covers = st.covers
    ∧ (promoteCovers st).big_covers = st.big_covers
    ∧ (promoteCovers st).fi.cover
        = (match st.covers with | c :: _ => some c | [] => st.fi.cover)
    ∧ (promoteCovers st).fi.big_cover
        = (match st.big_covers with | c :: _ => some c | [] => st.fi.big_cover)
    ∧ (promoteCovers st).fi.dvdid = st.fi.dvdid
    ∧ (promoteCovers st).fi.cid = st.fi.cid := by
  unfold promoteCovers
  cases st.covers <;> cases st.big_covers <;> exact ⟨rfl, rfl, rfl, rfl, rfl, rfl⟩

theorem fixGenre_keeps (movie : Movie) (fi : MovieInfo) :
    (fixGenre movie fi).cover = fi.cover
    ∧ (fixGenre movie fi).big_cover = fi.big_cover
    ∧ (fixGenre movie fi).dvdid = fi.dvdid
    ∧ (fixGenre movie fi).cid = fi.cid := by
  unfold fixGenre
  cases hu : movie.uncensored <;> cases hh : movie.hard_sub <;>
    cases hg : fi.genre.isNone <;>
    simp [hu, hh, hg]

theorem normalizeActress_keeps (cfg : Config) (aliasMap : List (String × List String))
    (fi fi2 : MovieInfo) (h : normalizeActress cfg aliasMap fi = .ok fi2) :
    fi2.cover = fi.cover ∧ fi2.big_cover = fi.big_cover
    ∧ fi2.dvdid = fi.dvdid ∧ fi2.cid = fi.cid := by
  unfold normalizeActress at h
  by_cases hc : (cfg.normalize_actress_name && pyTruthyDict fi.actress_pics) = true
  · rw [if_pos hc] at h
    cases hact : fi.actress with
    | none => rw [hact] at h; exact Except.noConfusion h
    | some l => rw [hact] at h; cases h; exact ⟨rfl, rfl, rfl, rfl⟩
  · rw [if_neg hc] at h
    cases h; exact ⟨rfl, rfl, rfl, rfl⟩

theorem postProcess_spec (cfg : Config) (aliasMap : List (String × List String))
    (movie : Movie) (st st2 : MergeState)
    (h : postProcess cfg aliasMap movie st = .ok st2) :
    st2.covers = st.covers ∧ st2.big_covers = st.big_covers
    ∧ st2.fi.cover = (match st.covers with | c :: _ => some c | [] => st.fi.cover)
    ∧ st2.fi.big_cover
        = (match st.big_covers with | c :: _ => some c | [] => st.fi.big_cover)
    ∧ st2.fi.dvdid = st.fi.dvdid ∧ st2.fi.cid = st.fi.cid := by
  unfold postProcess at h
  cases hna : normalizeActress cfg aliasMap (fixGenre movie (promoteCovers st).fi) with
  | error e => rw [hna] at h; exact Except.noConfusion h
  | ok fi2 =>
      rw [hna] at h
      dsimp only at h
      obtain ⟨hna1, hna2, hna3, hna4⟩ :=
        normalizeActress_keeps cfg aliasMap (fixGenre movie (promoteCovers st).fi) fi2 hna
      obtain ⟨hf1, hf2, hf3, hf4⟩ := fixGenre_keeps movie (promoteCovers st).fi
      obtain ⟨hp1, hp2, hp3, hp4, hp5, hp6⟩ := promoteCovers_spec st
      cases h
      refine ⟨hp1, hp2, ?_, ?_, ?_, ?_⟩
      · rw [hna1, hf1, hp3]
      · rw [hna2, hf2, hp4]
      · rw [hna3, hf3, hp5]
      · rw [hna4, hf4, hp6]

theorem ifSiteAvid_keeps (c : Prop) [Decidable c] (movie : Movie)
    (ai : List (String × MovieInfo)) (st : MergeState) :
    ((if c then applySiteAvid movie ai st else st).covers = st.covers)
    ∧ ((if c then applySiteAvid movie ai st else st).big_covers = st.big_covers)
    ∧ ((if c then applySiteAvid movie ai st else st).fi.cover = st.fi.cover)
    ∧ ((if c then applySiteAvid movie ai st else st).fi.big_cover = st.fi.big_cover) := by
  split
  · exact applySiteAvid_keeps movie ai st
  · exact ⟨rfl, rfl, rfl, rfl⟩

/-- C6 amended: when the watermarked-cover handling keeps the list
untouched (mode `yes`/keep) or the `javdb` record contributed no cover,
the final ordered cover list is the union of the sources' truthy cover
values in priority order, de-duplicated keeping the first occurrence of
each URL — hence it contains no repeated URL and preserves first-seen
order — and likewise for the high-resolution list; the head of each list
(or `None` when empty) becomes the `cover` / `big_cover` field.  Under the
`fallback` mode the code demotes the `javdb` cover to the end of the list,
breaking first-seen order (see the counterexample), and under `no` it
removes it from the union. -/
theorem covers_first_seen_dedup
    (cfg : Config) (aliasMap : List (String × List String))
    (strip : Option String → Option (List String) → Option String)
    (movie : Movie) (all_info : List (String × MovieInfo)) (fst : MergeState)
    (hmode : cfg.use_javdb_cover = .yes
      ∨ (lookupInfo (stripTitles cfg strip all_info) "javdb").bind (fun d => d.cover) = none)
    (h : buildFinal cfg aliasMap strip movie all_info = .ok fst) :
    fst.covers = dedupFirst (truthyCovers (all_info.map (fun p => p.2.cover)))
    ∧ fst.big_covers = dedupFirst (truthyCovers (all_info.map (fun p => p.2.big_cover)))
    ∧ fst.covers.Nodup ∧ fst.big_covers.Nodup
    ∧ fst.fi.cover = fst.covers.head?
    ∧ fst.fi.big_cover = fst.big_covers.head? := by
  simp only [buildFinal] at h
  rw [applyJavdbCover_noop _ _ _ hmode, except_ok_bind] at h
  obtain ⟨h1, h2, h3, h4, _, _⟩ := postProcess_spec _ _ _ _ _ h
  have hc1 : fst.covers = dedupFirst (truthyCovers (all_info.map (fun p => p.2.cover))) := by
    rw [h1, (ifSiteAvid_keeps _ _ _ _).1, covers_mergeRecords, foldl_absorbCover,
      (stripTitles_cover cfg strip all_info).1]
    rfl
  have hc2 : fst.big_covers
      = dedupFirst (truthyCovers (all_info.map (fun p => p.2.big_cover))) := by
    rw [h2, (ifSiteAvid_keeps _ _ _ _).2.1, big_covers_mergeRecords, foldl_absorbCover,
      (stripTitles_cover cfg strip all_info).2]
    rfl
  have hnone : (if cfg.respect_site_avid = true
      then applySiteAvid movie (stripTitles cfg strip all_info)
        (mergeRecords { fi := seedGenre all_info (MovieInfo.fromMovie movie) }
          (stripTitles cfg strip all_info))
      else mergeRecords { fi := seedGenre all_info (MovieInfo.fromMovie movie) }
        (stripTitles cfg strip all_info)).fi.cover = none := by
    rw [(ifSiteAvid_keeps _ _ _ _).2.2.1, (mergeRecords_fi_cover _ _).1]
    exact (seedGenre_keeps _ _).1
  have hnoneB : (if cfg.respect_site_avid = true
      then applySiteAvid movie (stripTitles cfg strip all_info)
        (mergeRecords { fi := seedGenre all_info (MovieInfo.fromMovie movie) }
          (stripTitles cfg strip all_info))
      else mergeRecords { fi := seedGenre all_info (MovieInfo.fromMovie movie) }
        (stripTitles cfg strip all_info)).fi.big_cover = none := by
    rw [(ifSiteAvid_keeps _ _ _ _).2.2.2, (mergeRecords_fi_cover _ _).2]
    exact (seedGenre_keeps _ _).2.1
  refine ⟨hc1, hc2, hc1 ▸ dedupFirst_nodup _, hc2 ▸ dedupFirst_nodup _, ?_, ?_⟩
  · rw [h3, ← h1, hnone]
    cases hcc : fst.covers <;> rfl
  · rw [h4, ← h2, hnoneB]
    cases hcc : fst.big_covers <;> rfl

def c6cfg : Config := { use_javdb_cover := .fallback }

def c6infos : List (String × MovieInfo) :=
  [("javdb", { cover := some "A" }), ("x", { cover := some "B" })]

def c6covers : List String :=
  match buildFinal c6cfg [] (fun t _ => t) {} c6infos with
  | .ok fst => fst.covers
  | .error _ => []

/-- C6 counterexample: under the `fallback` handling of the watermarked
`javdb` cover (lines 297-300), the cover seen first (`javdb`'s "A") is
removed and re-appended after "B": the final list is `["B", "A"]`, which
is not the first-seen-ordered union `["A", "B"]` the claim demands for
all merge inputs. -/
theorem covers_reordered_under_fallback :
    c6covers = ["B", "A"]
    ∧ dedupFirst (truthyCovers (c6infos.map (fun p => p.2.cover))) = ["A", "B"]
    ∧ c6covers ≠ dedupFirst (truthyCovers (c6infos.map (fun p => p.2.cover))) := by
  refine ⟨rfl, rfl, by decide⟩

def c6wcfg : Config := { use_javdb_cover := .yes }

def c6winfos : List (String × MovieInfo) :=
  [("a", { cover := some "A", big_cover := some "H" }),
   ("b", { cover := some "A" }),
   ("c", { cover := some "B" })]

def c6wfst : MergeState :=
  match buildFinal c6wcfg [] (fun t _ => t) {} c6winfos with
  | .ok fst => fst
  | .error _ => { fi := {} }

/-- Witness for the C6 amended theorem: three sources under keep mode, a
duplicated "A" cover is absorbed once, first-seen order kept, and the head
becomes the cover field. -/
theorem covers_first_seen_dedup_witness :
    (c6wcfg.use_javdb_cover = UseJavDBCover.yes
      ∨ (lookupInfo (stripTitles c6wcfg (fun t _ => t) c6winfos) "javdb").bind
          (fun d => d.cover) = none)
    ∧ (buildFinal c6wcfg [] (fun t _ => t) {} c6winfos = .ok c6wfst)
    ∧ c6wfst.covers = dedupFirst (truthyCovers (c6winfos.map (fun p => p.2.cover)))
    ∧ c6wfst.covers = ["A", "B"]
    ∧ c6wfst.fi.cover = some "A" := by
  refine ⟨Or.inl rfl, rfl,
    (covers_first_seen_dedup c6wcfg [] (fun t _ => t) {} c6winfos c6wfst
      (Or.inl rfl) rfl).1, rfl, rfl⟩

/-! ## Identifier-grouping lemmas (for C7) -/

theorem bind_ok_inv {α β : Type} (x : Except Unit α) (f : α → Except Unit β) (b : β)
    (h : (x >>= f) = .ok b) : ∃ a, x = .ok a ∧ f a = .ok b := by
  cases x with
  | error e => exact Except.noConfusion h
  | ok a => exact ⟨a, rfl, h⟩

theorem firstMaxGroup_eq_none (l : List (Option String × List String)) :
    firstMaxGroup l = none ↔ l = [] := by
  cases l with
  | nil => simp [firstMaxGroup]
  | cons g gs =>
      rw [firstMaxGroup]
      cases firstMaxGroup gs with
      | none => simp
      | some b =>
          dsimp only
          constructor
          · intro hx
            by_cases hb : b.2.length > g.2.length
            · rw [if_pos hb] at hx; exact Option.noConfusion hx
            · rw [if_neg hb] at hx; exact Option.noConfusion hx
          · intro hx; exact List.noConfusion hx

theorem firstMaxGroup_spec :
    ∀ (l : List (Option String × List String)) (g : Option String × List String),
      firstMaxGroup l = some g →
      ∃ pre post, l = pre ++ g :: post
        ∧ (∀ g2 ∈ pre, g2.2.length < g.2.length)
        ∧ (∀ g2 ∈ l, g2.2.length ≤ g.2.length) := by
  intro l
  induction l with
  | nil => intro g h; exact absurd h (by simp [firstMaxGroup])
  | cons a gs ih =>
      intro g h
      rw [firstMaxGroup] at h
      cases hfm : firstMaxGroup gs with
      | none =>
          rw [hfm] at h
          cases h
          have hnil : gs = [] := (firstMaxGroup_eq_none gs).mp hfm
          subst hnil
          refine ⟨[], [], rfl, by simp, ?_⟩
          intro g2 hg2
          rw [List.mem_singleton.mp hg2]
      | some b =>
          rw [hfm] at h
          dsimp only at h
          by_cases hlen : b.2.length > a.2.length
          · rw [if_pos hlen] at h
            cases h
            obtain ⟨pre, post, heq, hpre, hall⟩ := ih g hfm
            refine ⟨a :: pre, post, by rw [heq, List.cons_append], ?_, ?_⟩
            · intro g2 hg2
              rcases List.mem_cons.mp hg2 with hga | hgp
              · rw [hga]; exact hlen
              · exact hpre g2 hgp
            · intro g2 hg2
              rcases List.mem_cons.mp hg2 with hga | hgg
              · rw [hga]; exact Nat.le_of_lt hlen
              · exact hall g2 hgg
          · rw [if_neg hlen] at h
            cases h
            obtain ⟨_, _, _, _, hall⟩ := ih b hfm
            refine ⟨[], gs, rfl, by simp, ?_⟩
            intro g2 hg2
            rcases List.mem_cons.mp hg2 with hga | hgg
            · rw [hga]
            · exact Nat.le_trans (hall g2 hgg) (Nat.le_of_not_lt hlen)

/-- The group of key `k` in an insertion-ordered grouping, empty when
absent (`id_weight.get(k, [])`). -/
def groupOf (l : List (Option String × List String)) (k : Option String) : List String :=
  ((l.find? (fun g => decide (g.1 = k))).map (fun g => g.2)).getD []

theorem groupOf_cons_eq (g : Option String × List String)
    (X : List (Option String × List String)) (k : Option String) (hg : g.1 = k) :
    groupOf (g :: X) k = g.2 := by
  unfold groupOf
  rw [List.find?_cons_of_pos _ (by rw [hg]; exact decide_eq_true rfl)]
  rfl

theorem groupOf_cons_ne (g : Option String × List String)
    (X : List (Option String × List String)) (k : Option String) (hg : ¬(g.1 = k)) :
    groupOf (g :: X) k = groupOf X k := by
  unfold groupOf
  rw [List.find?_cons_of_neg _ (by simpa using hg)]

theorem setdefaultAppend_cons_ne (g : Option String × List String)
    (t : List (Option String × List String)) (k : Option String) (n : String)
    (hg : ¬(g.1 = k)) :
    setdefaultAppend (g :: t) k n = g :: setdefaultAppend t k n := by
  unfold setdefaultAppend
  have hga : ((g :: t).any (fun x => decide (x.1 = k))) = (t.any (fun x => decide (x.1 = k))) := by
    simp [List.any_cons, hg]
  rw [hga]
  by_cases ht : (t.any (fun x => decide (x.1 = k))) = true
  · rw [if_pos ht, if_pos ht, List.map_cons, if_neg hg]
  · rw [if_neg ht, if_neg ht, List.cons_append]

theorem groupOf_map_repl_ne (t : List (Option String × List String))
    (k k2 : Option String) (n : String) (hk : ¬(k = k2)) :
    groupOf (t.map (fun g => if g.1 = k then (g.1, g.2 ++ [n]) else g)) k2
      = groupOf t k2 := by
  induction t with
  | nil => rfl
  | cons g t ih =>
      rw [List.map_cons]
      by_cases hg : g.1 = k
      · rw [if_pos hg, groupOf_cons_ne _ _ _ (by rw [hg]; exact hk),
          groupOf_cons_ne _ _ _ (by rw [hg]; exact hk), ih]
      · rw [if_neg hg]
        by_cases hg2 : g.1 = k2
        · rw [groupOf_cons_eq _ _ _ hg2, groupOf_cons_eq _ _ _ hg2]
        · rw [groupOf_cons_ne _ _ _ hg2, groupOf_cons_ne _ _ _ hg2, ih]

theorem groupOf_setdefaultAppend_same (l : List (Option String × List String))
    (k : Option String) (n : String) :
    groupOf (setdefaultAppend l k n) k = groupOf l k ++ [n] := by
  induction l with
  | nil => simp [setdefaultAppend, groupOf, List.find?]
  | cons g t ih =>
      by_cases hg : g.1 = k
      · have hany : ((g :: t).any (fun x => decide (x.1 = k))) = true := by
          simp [List.any_cons, hg]
        unfold setdefaultAppend
        rw [if_pos hany, List.map_cons, if_pos hg,
          groupOf_cons_eq (g.1, g.2 ++ [n]) _ _ hg, groupOf_cons_eq _ _ _ hg]
      · rw [setdefaultAppend_cons_ne g t k n hg, groupOf_cons_ne _ _ _ hg,
          groupOf_cons_ne _ _ _ hg, ih]

theorem groupOf_setdefaultAppend_ne (l : List (Option String × List String))
    (k k2 : Option String) (n : String) (hk : ¬(k = k2)) :
    groupOf (setdefaultAppend l k n) k2 = groupOf l k2 := by
  induction l with
  | nil => simp [setdefaultAppend, groupOf, List.find?, hk]
  | cons g t ih =>
      by_cases hg : g.1 = k
      · have hany : ((g :: t).any (fun x => decide (x.1 = k))) = true := by
          simp [List.any_cons, hg]
        unfold setdefaultAppend
        rw [if_pos hany, List.map_cons, if_pos hg,
          groupOf_cons_ne _ _ _ (by rw [hg]; exact hk),
          groupOf_cons_ne _ _ _ (by rw [hg]; exact hk),
          groupOf_map_repl_ne t k k2 n hk]
      · rw [setdefaultAppend_cons_ne g t k n hg]
        by_cases hg2 : g.1 = k2
        · rw [groupOf_cons_eq _ _ _ hg2, groupOf_cons_eq _ _ _ hg2]
        · rw [groupOf_cons_ne _ _ _ hg2, groupOf_cons_ne _ _ _ hg2, ih]

theorem groupOf_idWeight (useD : Bool) (ai : List (String × MovieInfo))
    (k : Option String) :
    groupOf (idWeight useD ai) k
      = (ai.filter (fun p => pyTruthyStr p.2.title
            && decide ((if useD then p.2.dvdid else p.2.cid) = k))).map (fun p => p.1) := by
  have haux : ∀ (l : List (String × MovieInfo)) (acc : List (Option String × List String)),
      groupOf (l.foldl (fun acc p =>
          if pyTruthyStr p.2.title then
            setdefaultAppend acc (if useD then p.2.dvdid else p.2.cid) p.1
          else acc) acc) k
        = groupOf acc k
          ++ (l.filter (fun p => pyTruthyStr p.2.title
                && decide ((if useD then p.2.dvdid else p.2.cid) = k))).map (fun p => p.1) := by
    intro l
    induction l with
    | nil => intro acc; simp
    | cons p t ih =>
        intro acc
        rw [List.foldl_cons]
        by_cases ht : pyTruthyStr p.2.title = true
        · rw [if_pos ht]
          by_cases hkey : (if useD then p.2.dvdid else p.2.cid) = k
          · rw [ih, hkey, groupOf_setdefaultAppend_same,
              List.filter_cons_of_pos (by simp [ht, hkey]), List.map_cons,
              List.append_assoc, List.singleton_append]
          · rw [ih, groupOf_setdefaultAppend_ne _ _ _ _ hkey,
              List.filter_cons_of_neg (by simp [ht, hkey])]
        · rw [if_neg ht, ih, List.filter_cons_of_neg (by simp [ht])]
  have h0 : groupOf ([] : List (Option String × List String)) k = [] := rfl
  have := haux ai []
  rw [h0, List.nil_append] at this
  exact this

/-- C7: when canonical-identifier resolution is enabled and the grouping
of title-producing sources is non-empty, the final chosen identifier —
`dvdid` when the item has a dvdid, else `cid` (line 274/277 branches on
`movie.dvdid`, line 285/290 assigns the matching field) — is the key of
the first group of maximal size in the insertion-ordered grouping: its
size bounds every group's size, every group before it is strictly
smaller, and the group of any key `k` consists exactly of the
(title-producing) sources that returned `k`, in priority order. -/
theorem site_avid_picks_majority_id
    (cfg : Config) (aliasMap : List (String × List String))
    (strip : Option String → Option (List String) → Option String)
    (movie : Movie) (all_info : List (String × MovieInfo)) (fst : MergeState)
    (g : Option String × List String)
    (hc : cfg.respect_site_avid = true)
    (hg : firstMaxGroup (idWeight (pyTruthyStr movie.dvdid)
        (stripTitles cfg strip all_info)) = some g)
    (h : buildFinal cfg aliasMap strip movie all_info = .ok fst) :
    (pyTruthyStr movie.dvdid = true → fst.fi.dvdid = g.1)
    ∧ (pyTruthyStr movie.dvdid = false → fst.fi.cid = g.1)
    ∧ (∃ pre post, idWeight (pyTruthyStr movie.dvdid) (stripTitles cfg strip all_info)
        = pre ++ g :: post
        ∧ (∀ g2 ∈ pre, g2.2.length < g.2.length))
    ∧ (∀ g2 ∈ idWeight (pyTruthyStr movie.dvdid) (stripTitles cfg strip all_info),
        g2.2.length ≤ g.2.length)
    ∧ (∀ k, groupOf (idWeight (pyTruthyStr movie.dvdid) (stripTitles cfg strip all_info)) k
        = ((stripTitles cfg strip all_info).filter
            (fun p => pyTruthyStr p.2.title
              && decide ((if pyTruthyStr movie.dvdid then p.2.dvdid else p.2.cid) = k))).map
              (fun p => p.1)) := by
  obtain ⟨pre, post, heq, hpre, hall⟩ := firstMaxGroup_spec _ g hg
  simp only [buildFinal] at h
  rw [if_pos hc] at h
  rw [applySiteAvid, hg] at h
  dsimp only at h
  refine ⟨?_, ?_, ⟨pre, post, heq, hpre⟩, hall, ?_⟩
  · intro hd
    rw [hd, if_pos rfl] at h
    obtain ⟨st3, hj, hpp⟩ := bind_ok_inv _ _ _ h
    have hfi := (applyJavdbCover_keeps _ _ _ _ hj).1
    have hdv := (postProcess_spec _ _ _ _ _ hpp).2.2.2.2.1
    rw [hdv, hfi]
  · intro hd
    rw [hd, if_neg (by decide)] at h
    obtain ⟨st3, hj, hpp⟩ := bind_ok_inv _ _ _ h
    have hfi := (applyJavdbCover_keeps _ _ _ _ hj).1
    have hcid := (postProcess_spec _ _ _ _ _ hpp).2.2.2.2.2
    rw [hcid, hfi]
  · intro k
    exact groupOf_idWeight (pyTruthyStr movie.dvdid) (stripTitles cfg strip all_info) k

def c7cfg : Config := { respect_site_avid := true }

def c7movie : Movie := { dvdid := some "X" }

def c7infos : List (String × MovieInfo) :=
  [("a", { title := some "t", dvdid := some "ID1" }),
   ("b", { title := some "t", dvdid := some "ID2" }),
   ("c", { title := some "t", dvdid := some "ID2" })]

def c7fst : MergeState :=
  match buildFinal c7cfg [] (fun t _ => t) c7movie c7infos with
  | .ok fst => fst
  | .error _ => { fi := {} }

def c7bmovie : Movie := { cid := some "C1", data_src := .cid }

def c7binfos : List (String × MovieInfo) :=
  [("a", { title := some "t", cid := some "CID1" }),
   ("b", { title := some "t", cid := some "CID2" }),
   ("c", { title := some "t", cid := some "CID2" })]

def c7bfst : MergeState :=
  match buildFinal c7cfg [] (fun t _ => t) c7bmovie c7binfos with
  | .ok fst => fst
  | .error _ => { fi := {} }

/-- Witness for C7, exercising both branches: for a dvdid-identified item,
three sources with truthy titles, two backing "ID2" against one backing
"ID1" — the final dvdid is "ID2"; for a cid-identified item (no dvdid),
the grouping is by `cid` and the final cid is the majority "CID2". -/
theorem site_avid_picks_majority_id_witness :
    (c7cfg.respect_site_avid = true)
    ∧ (firstMaxGroup (idWeight (pyTruthyStr c7movie.dvdid)
          (stripTitles c7cfg (fun t _ => t) c7infos))
        = some (some "ID2", ["b", "c"]))
    ∧ (buildFinal c7cfg [] (fun t _ => t) c7movie c7infos = .ok c7fst)
    ∧ (pyTruthyStr c7movie.dvdid = true)
    ∧ c7fst.fi.dvdid = some "ID2"
    ∧ (firstMaxGroup (idWeight (pyTruthyStr c7bmovie.dvdid)
          (stripTitles c7cfg (fun t _ => t) c7binfos))
        = some (some "CID2", ["b", "c"]))
    ∧ (buildFinal c7cfg [] (fun t _ => t) c7bmovie c7binfos = .ok c7bfst)
    ∧ (pyTruthyStr c7bmovie.dvdid = false)
    ∧ c7bfst.fi.cid = some "CID2" := by
  refine ⟨rfl, rfl, rfl, rfl, ?_, rfl, rfl, rfl, ?_⟩
  · exact (site_avid_picks_majority_id c7cfg [] (fun t _ => t) c7movie c7infos c7fst
      (some "ID2", ["b", "c"]) rfl rfl rfl).1 rfl
  · exact (site_avid_picks_majority_id c7cfg [] (fun t _ => t) c7bmovie c7binfos c7bfst
      (some "CID2", ["b", "c"]) rfl rfl rfl).2.1 rfl

/-! ## Namer loop lemmas (for C3, C8, C9) -/

theorem innerLoop_spec (f : Nat → Int) :
    ∀ (k s : Nat), innerLoop f k = some s →
      0 < f s ∧ 1 ≤ s ∧ s ≤ k ∧ ∀ s2, s < s2 → s2 ≤ k → ¬(0 < f s2) := by
  intro k
  induction k with
  | zero => intro s h; exact absurd h (by simp [innerLoop])
  | succ k ih =>
      intro s h
      rw [innerLoop] at h
      by_cases hf : 0 < f (k + 1)
      · rw [if_pos hf] at h
        cases h
        refine ⟨hf, Nat.succ_le_succ (Nat.zero_le k), Nat.le_refl _, ?_⟩
        intro s2 hlt hle
        exact absurd hle (Nat.not_le_of_gt hlt)
      · rw [if_neg hf] at h
        obtain ⟨h1, h2, h3, h4⟩ := ih s h
        refine ⟨h1, h2, Nat.le_succ_of_le h3, ?_⟩
        intro s2 hlt hle
        rcases Nat.eq_or_lt_of_le hle with heq | hlt2
        · rw [heq]; exact hf
        · exact h4 s2 hlt (Nat.lt_succ_iff.mp hlt2)

theorem innerLoop_eq_none (f : Nat → Int) :
    ∀ k, innerLoop f k = none → ∀ s, 1 ≤ s → s ≤ k → ¬(0 < f s) := by
  intro k
  induction k with
  | zero => intro _ s h1 h2; exact absurd (Nat.le_trans h1 h2) (by decide)
  | succ k ih =>
      intro h s h1 h2
      rw [innerLoop] at h
      by_cases hf : 0 < f (k + 1)
      · rw [if_pos hf] at h; exact Option.noConfusion h
      · rw [if_neg hf] at h
        rcases Nat.eq_or_lt_of_le h2 with heq | hlt
        · rw [heq]; exact hf
        · exact ih h s h1 (Nat.lt_succ_iff.mp hlt)

theorem outerLoop_spec (g : Nat → Nat → Int) (m : Nat) :
    ∀ (n e s : Nat), outerLoop g m n = some (e, s) →
      0 < g e s ∧ 1 ≤ e ∧ e ≤ n ∧ 1 ≤ s ∧ s ≤ m
      ∧ (∀ e2 s2, e < e2 → e2 ≤ n → 1 ≤ s2 → s2 ≤ m → ¬(0 < g e2 s2))
      ∧ (∀ s2, s < s2 → s2 ≤ m → ¬(0 < g e s2)) := by
  intro n
  induction n with
  | zero => intro e s h; exact absurd h (by simp [outerLoop])
  | succ n ih =>
      intro e s h
      rw [outerLoop] at h
      cases hin : innerLoop (g (n + 1)) m with
      | some s0 =>
          rw [hin] at h
          cases h
          obtain ⟨h1, h2, h3, h4⟩ := innerLoop_spec (g (n + 1)) m _ hin
          refine ⟨h1, Nat.succ_le_succ (Nat.zero_le n), Nat.le_refl _, h2, h3, ?_, h4⟩
          intro e2 s2 hlt hle _ _
          exact absurd hle (Nat.not_le_of_gt hlt)
      | none =>
          rw [hin] at h
          obtain ⟨h1, h2, h3, h4, h5, h6, h7⟩ := ih e s h
          refine ⟨h1, h2, Nat.le_succ_of_le h3, h4, h5, ?_, h7⟩
          intro e2 s2 hlt hle hs1 hs2
          rcases Nat.eq_or_lt_of_le hle with heq | hlt2
          · rw [heq]; exact innerLoop_eq_none (g (n + 1)) m hin s2 hs1 hs2
          · exact h6 e2 s2 hlt (Nat.lt_succ_iff.mp hlt2) hs1 hs2

theorem pyMaxByLen_ok (m : NMovie) (hf : m.files ≠ []) :
    pyMaxByLen (m.files.map extOf) = .ok (longestExt m) := by
  unfold longestExt
  cases hfs : m.files with
  | nil => exact absurd hfs hf
  | cons a t => rfl

theorem legalize_path_no_newline (s : String) : '\n' ∉ (legalize_path s).toList := by
  unfold legalize_path
  intro hmem
  have hm : '\n' ∈ (s.toList.filter (fun c => c ≠ '\n')) := hmem
  have := List.of_mem_filter hm
  simp at this

/-- C3: for an item with at least one source file and non-empty chunk
lists (a regex-style split always yields at least one chunk), the Namer
never raises: it returns a plan with all five path fields assigned, and
when no chunk-count combination fits, the plan's titles are the one-chunk
candidates hard-sliced (Python slicing) at the remaining budget computed
in the last loop iteration. -/
theorem namer_total (cfg : NamerCfg) (m : NMovie) (dT dRT : String)
    (hf : m.files ≠ [])
    (htb : namerTB m dT ≠ [])
    (hotb : namerOTB m dRT ≠ []) :
    ∃ out, generate_names cfg m dT dRT = .ok out
      ∧ out.movie.save_dir.isSome = true ∧ out.movie.basename.isSome = true
      ∧ out.movie.nfo_file.isSome = true ∧ out.movie.fanart_file.isSome = true
      ∧ out.movie.poster_file.isSome = true
      ∧ (outerLoop (remainingAt cfg m (namerTB m dT) (namerOTB m dRT) (longestExt m))
            (namerTB m dT).length (namerOTB m dRT).length = none →
          out.title = pySlice (candTitle cfg (namerTB m dT) 1)
              (remainingAt cfg m (namerTB m dT) (namerOTB m dRT) (longestExt m) 1 1)
          ∧ out.rawtitle = pySlice (candTitle cfg (namerOTB m dRT) 1)
              (remainingAt cfg m (namerTB m dT) (namerOTB m dRT) (longestExt m) 1 1)) := by
  unfold generate_names
  rw [pyMaxByLen_ok m hf, except_ok_bind]
  unfold namerCore
  cases ho : outerLoop (remainingAt cfg m (namerTB m dT) (namerOTB m dRT) (longestExt m))
      (namerTB m dT).length (namerOTB m dRT).length with
  | some p =>
      refine ⟨acceptAt cfg m dT dRT (longestExt m) p.1 p.2, rfl,
        rfl, rfl, rfl, rfl, rfl, ?_⟩
      intro hx; exact Option.noConfusion hx
  | none =>
      have htb2 : (namerTB m dT).isEmpty = false := by
        cases hc : namerTB m dT with
        | nil => exact absurd hc htb
        | cons a t => rfl
      have hotb2 : (namerOTB m dRT).isEmpty = false := by
        cases hc : namerOTB m dRT with
        | nil => exact absurd hc hotb
        | cons a t => rfl
      rw [if_neg (by simp [htb2, hotb2])]
      exact ⟨fallbackPlan cfg m dT dRT (longestExt m), rfl,
        rfl, rfl, rfl, rfl, rfl, fun _ => ⟨rfl, rfl⟩⟩

def c3cfg : NamerCfg :=
  { move_files := true
    output_folder_pattern := fun _ _ => "d"
    basename_pattern := fun r t => r ++ t
    nfo_basename_pattern := fun _ _ => "n"
    fanart_basename_pattern := fun _ _ => "f"
    cover_basename_pattern := fun _ _ => "c"
    replaceIllegal := fun s => s
    normpath := fun s => s
    abspath := fun s => s
    limit := 100 }

def c3movie : NMovie :=
  { files := ["v.mp4"], title_break := some ["T"], ori_title_break := some ["R"] }

/-- Witness for C3: a one-file item with one-chunk titles — the Namer
returns a plan with every path field assigned. -/
theorem namer_total_witness :
    (c3movie.files ≠ [] ∧ namerTB c3movie "" ≠ [] ∧ namerOTB c3movie "" ≠ [])
    ∧ ∃ out, generate_names c3cfg c3movie "" "" = .ok out
        ∧ out.movie.save_dir.isSome = true ∧ out.movie.basename.isSome = true
        ∧ out.movie.nfo_file.isSome = true ∧ out.movie.fanart_file.isSome = true
        ∧ out.movie.poster_file.isSome = true := by
  refine ⟨⟨by decide, by decide, by decide⟩, ?_⟩
  obtain ⟨out, h1, h2, h3, h4, h5, h6, _⟩ :=
    namer_total c3cfg c3movie "" "" (by decide) (by decide) (by decide)
  exact ⟨out, h1, h2, h3, h4, h5, h6⟩

/-- C8: when the nested search accepts a pair `(e, s)` of raw- and
display-title chunk counts, that pair fits the budget, every pair visited
before it in the scan order (larger raw count, or equal raw count and
larger display count) does not fit, and the Namer's output is exactly the
plan rendered at `(e, s)` — never any shorter combination. -/
theorem namer_first_fit (cfg : NamerCfg) (m : NMovie) (dT dRT : String) (e s : Nat)
    (hf : m.files ≠ [])
    (hfit : outerLoop (remainingAt cfg m (namerTB m dT) (namerOTB m dRT) (longestExt m))
        (namerTB m dT).length (namerOTB m dRT).length = some (e, s)) :
    0 < remainingAt cfg m (namerTB m dT) (namerOTB m dRT) (longestExt m) e s
    ∧ 1 ≤ e ∧ e ≤ (namerOTB m dRT).length ∧ 1 ≤ s ∧ s ≤ (namerTB m dT).length
    ∧ (∀ e2 s2, e < e2 → e2 ≤ (namerOTB m dRT).length →
        1 ≤ s2 → s2 ≤ (namerTB m dT).length →
        ¬(0 < remainingAt cfg m (namerTB m dT) (namerOTB m dRT) (longestExt m) e2 s2))
    ∧ (∀ s2, s < s2 → s2 ≤ (namerTB m dT).length →
        ¬(0 < remainingAt cfg m (namerTB m dT) (namerOTB m dRT) (longestExt m) e s2))
    ∧ generate_names cfg m dT dRT
        = .ok (acceptAt cfg m dT dRT (longestExt m) e s) := by
  obtain ⟨h1, h2, h3, h4, h5, h6, h7⟩ := outerLoop_spec _ _ _ e s hfit
  refine ⟨h1, h2, h3, h4, h5, h6, h7, ?_⟩
  unfold generate_names
  rw [pyMaxByLen_ok m hf, except_ok_bind]
  unfold namerCore
  rw [hfit]

def c8cfg : NamerCfg :=
  { move_files := true
    output_folder_pattern := fun _ _ => "d"
    basename_pattern := fun r t => r ++ t
    nfo_basename_pattern := fun _ _ => "n"
    fanart_basename_pattern := fun _ _ => "f"
    cover_basename_pattern := fun _ _ => "c"
    replaceIllegal := fun s => s
    normpath := fun s => s
    abspath := fun s => s
    limit := 12 }

def c8movie : NMovie :=
  { files := ["v.mp4"], title_break := some ["C"],
    ori_title_break := some ["AAAA", "BB"] }

/-- Witness for C8: at full raw-title length the path exceeds the limit,
with one raw chunk it fits — the Namer accepts `(1, 1)`, not any shorter
combination. -/
theorem namer_first_fit_witness :
    (c8movie.files ≠ [])
    ∧ (outerLoop (remainingAt c8cfg c8movie (namerTB c8movie "") (namerOTB c8movie "")
          (longestExt c8movie))
        (namerTB c8movie "").length (namerOTB c8movie "").length = some (1, 1))
    ∧ generate_names c8cfg c8movie "" ""
        = .ok (acceptAt c8cfg c8movie "" "" (longestExt c8movie) 1 1) := by
  refine ⟨by decide, by decide, ?_⟩
  exact (namer_first_fit c8cfg c8movie "" "" 1 1 (by decide)
    (by decide)).2.2.2.2.2.2.2

/-- C9 amended: every path field that `legalize_info` covers — save
directory, NFO path, fanart path, poster path — is newline-free on any
plan the Namer returns; the base name is NOT legalized and can retain a
newline (see the counterexample). -/
theorem namer_paths_newline_free (cfg : NamerCfg) (m : NMovie) (dT dRT : String)
    (out : NamerOut) (h : generate_names cfg m dT dRT = .ok out) :
    (∀ p, out.movie.save_dir = some p → '\n' ∉ p.toList)
    ∧ (∀ p, out.movie.nfo_file = some p → '\n' ∉ p.toList)
    ∧ (∀ p, out.movie.fanart_file = some p → '\n' ∉ p.toList)
    ∧ (∀ p, out.movie.poster_file = some p → '\n' ∉ p.toList) := by
  unfold generate_names at h
  obtain ⟨ext, hext, hcore⟩ := bind_ok_inv _ _ _ h
  unfold namerCore at hcore
  cases ho : outerLoop (remainingAt cfg m (namerTB m dT) (namerOTB m dRT) ext)
      (namerTB m dT).length (namerOTB m dRT).length with
  | some p =>
      rw [ho] at hcore
      cases hcore
      simp only [acceptAt, legalize_info, assignFields, Option.map_some]
      refine ⟨?_, ?_, ?_, ?_⟩ <;>
        · intro q hq
          cases hq
          exact legalize_path_no_newline _
  | none =>
      rw [ho] at hcore
      by_cases hemp : ((namerTB m dT).isEmpty || (namerOTB m dRT).isEmpty) = true
      · rw [if_pos hemp] at hcore
        exact Except.noConfusion hcore
      · rw [if_neg hemp] at hcore
        cases hcore
        simp only [fallbackPlan, legalize_info, assignFields, Option.map_some]
        refine ⟨?_, ?_, ?_, ?_⟩ <;>
          · intro q hq
            cases hq
            exact legalize_path_no_newline _

def c9cfg : NamerCfg :=
  { move_files := true
    output_folder_pattern := fun _ _ => "d"
    basename_pattern := fun _ t => t
    nfo_basename_pattern := fun _ _ => "n"
    fanart_basename_pattern := fun _ _ => "f"
    cover_basename_pattern := fun _ _ => "c"
    replaceIllegal := fun s => s
    normpath := fun s => s
    abspath := fun s => s
    limit := 1000 }

def c9movie : NMovie :=
  { files := ["v.mp4"], title_break := some ["a\nb"], ori_title_break := some ["r"] }

def c9basename : String :=
  match generate_names c9cfg c9movie "" "" with
  | .ok out => out.movie.basename.getD ""
  | .error _ => ""

/-- C9 counterexample: `legalize_info` (lines 380-393) legalizes
`save_dir`, `nfo_file`, `fanart_file` and `poster_file` but never
`basename`.  With an interior newline in the display title (which
`replace_illegal_chars` does not remove — the premise of `legalize_path`,
issue 467, and `.strip()` only trims the ends), the finally-assigned base
name still contains a newline, contrary to the claim. -/
theorem namer_basename_keeps_newline :
    c9basename = "a\nb" ∧ c9basename.toList.contains '\n' = true := by
  constructor
  · rfl
  · decide

def c9wout : NamerOut :=
  match generate_names c9cfg c9movie "" "" with
  | .ok out => out
  | .error _ => { movie := { files := [] }, title := "", rawtitle := "" }

/-- Witness for the C9 amended theorem: on the same newline-carrying
input, the four legalized path fields are newline-free. -/
theorem namer_paths_newline_free_witness :
    (generate_names c9cfg c9movie "" "" = .ok c9wout)
    ∧ (∀ p, c9wout.movie.save_dir = some p → '\n' ∉ p.toList)
    ∧ (∀ p, c9wout.movie.nfo_file = some p → '\n' ∉ p.toList)
    ∧ (∀ p, c9wout.movie.fanart_file = some p → '\n' ∉ p.toList)
    ∧ (∀ p, c9wout.movie.poster_file = some p → '\n' ∉ p.toList) := by
  obtain ⟨ha, hb, hc, hd⟩ := namer_paths_newline_free c9cfg c9movie "" "" c9wout rfl
  exact ⟨rfl, ha, hb, hc, hd⟩

end JavSP
